import Mathlib

/-!
# Verification of the room-session orchestration core (I-mean-chat)

Shallow embedding of the repository's session state machine
(`app/session.py`, class `SessionManager`) and of the per-room outbound
message dispatcher (`app/connection_manager.py`, class `ConnectionManager`).

Modelling conventions:
* `datetime.utcnow()` is an abstract tick counter (`Nat`), passed to each
  operation as `now`; `timedelta(minutes=SESSION_DURATION_MINUTES)` becomes
  the constant `sessionDuration` in the same tick unit.
* The database collaborator is a list of session rows plus an id counter.
  `db.commit()` is fallible: every operation takes explicit Boolean commit
  outcomes.  A failed commit raises in the source; the handlers call
  `db.rollback()`, which (with SQLAlchemy's expire-on-rollback) reverts all
  uncommitted attribute changes, so a failed commit leaves both the rows and
  the ORM objects at their pre-transaction values.  The model folds this
  into "a failed commit changes nothing of that transaction".
* ORM objects held in `self.room_sessions` are identity-mapped aliases of
  their rows, so the in-memory map stores the `session_id` and the current
  session's value is read through the database (`dbGet`).
* `asyncio.Task` objects for the timeout checker are modelled as records
  with a `live` flag; `Task.cancel()` clears the flag.  Cancellation is
  modelled as immediate: a task whose flag is cleared takes no further
  steps.
* User ids appear in the source both as `str` (connection keys, vote keys)
  and `int` (session columns); the conversion `int(user_id)` is injective on
  the ids that occur, so the model uses `Nat` everywhere.
* Message payloads are abstracted to the identity of the `dict` literal
  being broadcast (`MsgTag`), the `session_id` field when present, and the
  target argument of `broadcast_to_room`.
-/

namespace ImcChat

/-- Model of `settings.SESSION_DURATION_MINUTES` (app/config.py, default 1),
in abstract ticks. -/
def sessionDuration : Nat := 1

/-- The topic column; `SessionManager` only ever writes the two string
constants `"topic_1_situation"` and `"topic_2_emotion"`. -/
inductive Topic
  | situation
  | emotion
deriving DecidableEq

/-- One row of the `sessions` table (app/models/chat.py, class `Session`).
A session is *active* while `end_time` is `none`. -/
structure SessionRow where
  session_id : Nat
  room_id : Nat
  user_a_id : Nat
  user_b_id : Nat
  topic : Topic
  start_time : Nat
  end_time : Option Nat
  extension_used : Bool
deriving DecidableEq

/-- Which broadcast payload of `session.py` a message is. -/
inductive MsgTag
  | initialSystem      -- greeting block, start_new_initial_session
  | firstSessionStart  -- "session" message announcing topic_1_situation
  | extensionPrompt    -- timeout prompt asking whether to extend
  | waitingOther       -- "other user is still choosing" (targeted)
  | sessionExtendedAll -- extension granted, both said yes (text differs only)
  | sessionExtendedOne -- extension granted, one said yes
  | emotionTransition  -- "session" message announcing topic_2_emotion
  | finalEnd           -- closing system message
deriving DecidableEq

/-- One call to the broadcaster (`ConnectionManager.broadcast_to_room`):
payload identity, the `session_id` field of the payload when present, and
the `target_user_id` argument (`none` = broadcast to the whole room). -/
structure Msg where
  tag : MsgTag
  session_id : Option Nat
  target : Option Nat
deriving DecidableEq

/-- An `asyncio.Task` created by `asyncio.create_task(self._check_session_timeout(...))`.
`duration` records the segment length the checker compares against. -/
structure TimerTask where
  tid : Nat
  room_id : Nat
  target_session_id : Nat
  duration : Nat
  live : Bool
deriving DecidableEq

/-! ## Association-list primitives (Python `dict` keyed by ints) -/

/-- Lookup `d.get(key)` on a dict represented as an association list. -/
def alookup {α : Type} : List (Nat × α) → Nat → Option α
  | [], _ => none
  | (k, v) :: rest, key => if k = key then some v else alookup rest key

/-- Assignment `d[key] = v` (insert or overwrite). -/
def aset {α : Type} : List (Nat × α) → Nat → α → List (Nat × α)
  | [], key, v => [(key, v)]
  | (k, w) :: rest, key, v =>
      if k = key then (k, v) :: rest else (k, w) :: aset rest key v

/-- Deletion `del d[key]` (no-op when absent). -/
def aremove {α : Type} : List (Nat × α) → Nat → List (Nat × α)
  | [], _ => []
  | (k, w) :: rest, key =>
      if k = key then aremove rest key else (k, w) :: aremove rest key

/-! ## Database rows -/

/-- Fetch `db.get(Session, sid)`. -/
def dbGet : List SessionRow → Nat → Option SessionRow
  | [], _ => none
  | r :: rest, sid => if r.session_id = sid then some r else dbGet rest sid

/-- Commit of attribute changes to a fetched row: replace the row with the
same `session_id` (appends when absent, which never happens on the
operations below). -/
def dbSet : List SessionRow → SessionRow → List SessionRow
  | [], r => [r]
  | s :: rest, r => if s.session_id = r.session_id then r :: rest else s :: dbSet rest r

/-- Lookup in the task list by task id. -/
def taskGet : List TimerTask → Nat → Option TimerTask
  | [], _ => none
  | t :: rest, tid => if t.tid = tid then some t else taskGet rest tid

/-- Cancellation `task.cancel()`: clear the live flag of the task with this id. -/
def cancelTask (tasks : List TimerTask) (tid : Nat) : List TimerTask :=
  tasks.map (fun t => if t.tid = tid then { t with live := false } else t)

/-! ## SessionManager state (app/session.py lines 14-24) -/

/-- In-memory state of `SessionManager` together with the session table of
the database collaborator.  `room_sessions` stores the `session_id` of the
identity-mapped row object held for each room. -/
structure MgrState where
  db : List SessionRow
  nextSessionId : Nat
  room_sessions : List (Nat × Nat)
  tasks : List TimerTask
  nextTaskId : Nat
  session_tasks : List (Nat × Nat)
  session_responses : List (Nat × List (Nat × Bool))
deriving DecidableEq

def initState : MgrState :=
  { db := [], nextSessionId := 0, room_sessions := [], tasks := [],
    nextTaskId := 0, session_tasks := [], session_responses := [] }

/-- The pattern `if room_id in self.session_tasks: self.session_tasks[room_id].cancel()`
(session.py lines 52-57, 170, 253). -/
def cancelRoomTask (st : MgrState) (room : Nat) : MgrState :=
  match alookup st.session_tasks room with
  | none => st
  | some tid => { st with tasks := cancelTask st.tasks tid }

/-- Arming `self.session_tasks[room_id] = asyncio.create_task(self._check_session_timeout(...))`. -/
def spawnTimerTask (st : MgrState) (room sid : Nat) : MgrState :=
  { st with
    tasks := st.tasks ++ [⟨st.nextTaskId, room, sid, sessionDuration, true⟩],
    session_tasks := aset st.session_tasks room st.nextTaskId,
    nextTaskId := st.nextTaskId + 1 }

/-- Cancel the dict-registered checker (if any) and arm a fresh one; every
site in the source that starts a timer does exactly this pair. -/
def restartTimer (st : MgrState) (room sid : Nat) : MgrState :=
  spawnTimerTask (cancelRoomTask st room) room sid

/-- Model of `SessionManager.clear_room_session_data` (session.py lines 288-300). -/
def clear_room_session_data (st : MgrState) (room : Nat) : MgrState :=
  let st1 := { st with room_sessions := aremove st.room_sessions room }
  let st2 :=
    match alookup st1.session_tasks room with
    | none => st1
    | some tid =>
        { st1 with tasks := cancelTask st1.tasks tid,
                   session_tasks := aremove st1.session_tasks room }
  { st2 with session_responses := aremove st2.session_responses room }

/-- Model of `SessionManager.start_new_initial_session` (session.py lines 30-91).
Returns the new state, the returned `Session` object, and the broadcasts.
`commitOk` is the outcome of `db.commit()`; on failure the `except` branch
rolls back and returns `None`. -/
def start_new_initial_session (st : MgrState) (room uA uB : Nat) (now : Nat)
    (commitOk : Bool) : MgrState × Option SessionRow × List Msg :=
  match alookup st.room_sessions room with
  | some sid => (st, dbGet st.db sid, [])
  | none =>
    if commitOk then
      let row : SessionRow :=
        { session_id := st.nextSessionId, room_id := room, user_a_id := uA,
          user_b_id := uB, topic := .situation, start_time := now,
          end_time := none, extension_used := false }
      let st1 := { st with db := st.db ++ [row],
                           nextSessionId := st.nextSessionId + 1,
                           room_sessions := aset st.room_sessions room row.session_id }
      let st2 := restartTimer st1 room row.session_id
      (st2, some row,
        [{ tag := .initialSystem, session_id := none, target := none },
         { tag := .firstSessionStart, session_id := some row.session_id, target := none }])
    else
      (st, none, [])

/-- Model of `SessionManager._transition_to_emotion_topic` (session.py lines 144-180).
`ended` is the situation session object passed by the caller; `conns` is the
snapshot from `active_connections_provider(room_id)`.  `ok1` commits the
close of `ended`, `ok2` commits the new emotion row.  A failed commit raises
to the caller: the `Except.error` value carries the state visible to the
caller's handler after `db.rollback()` (committed effects only). -/
def transition_to_emotion_topic (st : MgrState) (room : Nat) (ended : SessionRow)
    (conns : List Nat) (now : Nat) (ok1 ok2 : Bool) :
    Except MgrState (MgrState × List Msg) :=
  if ok1 then
    let closed := { ended with end_time := some now }
    let st1 := { st with db := dbSet st.db closed }
    match conns with
    | ua :: ub :: _ =>
      if ok2 then
        let row : SessionRow :=
          { session_id := st1.nextSessionId, room_id := room, user_a_id := ua,
            user_b_id := ub, topic := .emotion, start_time := now,
            end_time := none, extension_used := false }
        let st2 := { st1 with db := st1.db ++ [row],
                              nextSessionId := st1.nextSessionId + 1,
                              room_sessions := aset st1.room_sessions room row.session_id }
        let st3 := restartTimer st2 room row.session_id
        .ok (st3, [{ tag := .emotionTransition, session_id := some row.session_id,
                     target := none }])
      else .error st1
    | _ => .ok (st1, [])   -- fewer than 2 users connected: abort (lines 155-157)
  else .error st

/-- Model of `SessionManager._end_chat_after_emotion_extension` (session.py lines 182-194). -/
def end_chat_after_emotion_extension (st : MgrState) (room : Nat)
    (ended : SessionRow) (now : Nat) (ok : Bool) :
    Except MgrState (MgrState × List Msg) :=
  if ok then
    let closed := { ended with end_time := some now }
    let st1 := { st with db := dbSet st.db closed }
    let st2 := clear_room_session_data st1 room
    .ok (st2, [{ tag := .finalEnd, session_id := none, target := none }])
  else .error st

/-- Model of `SessionManager.add_session_response` (session.py lines 196-268).
`ok1` is the outcome of the first commit of the resolution (extension
update, close of the situation row, or close of the emotion row); `ok2` of
the second commit inside the topic transition.  On a raised commit the
`except` branch (lines 266-268) rolls back; in particular the
`del self.session_responses[room_id]` of line 264 is skipped. -/
def add_session_response (st : MgrState) (room user : Nat) (response : Bool)
    (conns : List Nat) (now : Nat) (ok1 ok2 : Bool) : MgrState × List Msg :=
  let resp :=
    aset (match alookup st.session_responses room with
          | some m => m
          | none => []) user response
  let st0 := { st with session_responses := aset st.session_responses room resp }
  match alookup st0.room_sessions room with
  | none =>
      ({ st0 with session_responses := aremove st0.session_responses room }, [])
  | some sid =>
    if conns.length < 2 then (st0, [])
    else if resp.length = 1 then
      (st0, [{ tag := .waitingOther, session_id := none, target := some user }])
    else if resp.length = 2 then
      let all_yes := resp.all (fun p => p.2)
      let any_yes := resp.any (fun p => p.2)
      match dbGet st0.db sid with
      | none =>
          ({ st0 with session_responses := aremove st0.session_responses room }, [])
      | some row =>
        if all_yes || any_yes then
          if ok1 then
            let row2 := { row with extension_used := true, start_time := now }
            let st1 := { st0 with db := dbSet st0.db row2,
                                  room_sessions := aset st0.room_sessions room row2.session_id }
            let st2 := restartTimer st1 room row2.session_id
            ({ st2 with session_responses := aremove st2.session_responses room },
             [{ tag := (if all_yes then .sessionExtendedAll else .sessionExtendedOne),
                session_id := some row2.session_id, target := none }])
          else (st0, [])
        else
          match (if row.topic = .situation then
                   transition_to_emotion_topic st0 room row conns now ok1 ok2
                 else
                   end_chat_after_emotion_extension st0 room row now ok1) with
          | .ok (st1, msgs) =>
              ({ st1 with session_responses := aremove st1.session_responses room }, msgs)
          | .error stE => (stE, [])
    else (st0, [])

/-- One iteration of the polling loop of
`SessionManager._check_session_timeout` (session.py lines 97-138), entered
after `asyncio.sleep(10)`.  The third component is `true` when the loop
continues to the next sleep and `false` when the task ends (`break`, or an
exception caught at lines 139-142). -/
def check_session_timeout_step (st : MgrState) (room targetSid : Nat)
    (conns : List Nat) (now : Nat) (ok1 ok2 : Bool) :
    MgrState × List Msg × Bool :=
  match alookup st.room_sessions room with
  | none => (st, [], false)
  | some sid =>
    if sid = targetSid then
      match dbGet st.db sid with
      | none => (st, [], false)
      | some row =>
        if sessionDuration ≤ now - row.start_time then
          if row.extension_used then
            match (match row.topic with
                   | .situation => transition_to_emotion_topic st room row conns now ok1 ok2
                   | .emotion => end_chat_after_emotion_extension st room row now ok1) with
            | .ok (st1, msgs) => (st1, msgs, false)
            | .error stE => (stE, [], false)
          else
            ({ st with session_responses := aset st.session_responses room [] },
             [{ tag := .extensionPrompt, session_id := some row.session_id,
                target := none }], false)
        else (st, [], true)
    else (st, [], false)

/-- The checker task `tid` wakes up and runs one loop iteration; a task that
was cancelled or already finished runs nothing.  When the iteration ends the
loop, the task completes (its live flag clears). -/
def timer_fire (st : MgrState) (tid : Nat) (conns : List Nat) (now : Nat)
    (ok1 ok2 : Bool) : MgrState × List Msg :=
  match taskGet st.tasks tid with
  | none => (st, [])
  | some t =>
    if t.live then
      let out := check_session_timeout_step st t.room_id t.target_session_id conns now ok1 ok2
      if out.2.2 then (out.1, out.2.1)
      else ({ out.1 with tasks := cancelTask out.1.tasks tid }, out.2.1)
    else (st, [])

/-- Model of `SessionManager.end_session_for_room` (session.py lines 270-286); the
route handler calls it when the last participant has disconnected
(app/routers/websockets.py lines 318-322). -/
def end_session_for_room (st : MgrState) (room : Nat) (now : Nat) (ok : Bool) :
    MgrState :=
  let st1 :=
    match alookup st.room_sessions room with
    | none => st
    | some sid =>
      match dbGet st.db sid with
      | none => st
      | some row =>
        if row.end_time = none then
          if ok then { st with db := dbSet st.db { row with end_time := some now } }
          else st
        else st
  clear_room_session_data st1 room

/-! ## Event traces over the session manager -/

/-- External stimuli of the session core: the route layer starting the
initial session once both users are connected, a vote (`type == "response"`
frame), a timeout checker waking up, and the room becoming empty. -/
inductive Event
  | startSession (room uA uB now : Nat) (ok : Bool)
  | vote (room user : Nat) (choice : Bool) (conns : List Nat) (now : Nat) (ok1 ok2 : Bool)
  | timerFire (tid : Nat) (conns : List Nat) (now : Nat) (ok1 ok2 : Bool)
  | roomEmptied (room now : Nat) (ok : Bool)

/-- All `db.commit()` outcomes of the event succeed (the spec assumes the
persistence collaborator is durable and reliable). -/
def Event.allOk : Event → Bool
  | .startSession _ _ _ _ ok => ok
  | .vote _ _ _ _ _ ok1 ok2 => ok1 && ok2
  | .timerFire _ _ _ ok1 ok2 => ok1 && ok2
  | .roomEmptied _ _ ok => ok

def applyEvent (st : MgrState) : Event → MgrState × List Msg
  | .startSession room uA uB now ok =>
      let out := start_new_initial_session st room uA uB now ok
      (out.1, out.2.2)
  | .vote room user choice conns now ok1 ok2 =>
      add_session_response st room user choice conns now ok1 ok2
  | .timerFire tid conns now ok1 ok2 => timer_fire st tid conns now ok1 ok2
  | .roomEmptied room now ok => (end_session_for_room st room now ok, [])

def runEvents (st : MgrState) : List Event → MgrState
  | [] => st
  | e :: es => runEvents (applyEvent st e).1 es

/-- The state a fallible transition leaves behind, whether it returned
normally or raised to its caller. -/
def exceptState (e : Except MgrState (MgrState × List Msg)) : MgrState :=
  match e with
  | .ok (s, _) => s
  | .error s => s

/-- Inductive invariant for the timer tasks: task ids are fresh and pairwise
distinct, and a live checker task is always the one registered in
`session_tasks` for its room. -/
def TimerInv (st : MgrState) : Prop :=
  (∀ t ∈ st.tasks, t.tid < st.nextTaskId) ∧
  (st.tasks.map TimerTask.tid).Nodup ∧
  (∀ t ∈ st.tasks, t.live = true → alookup st.session_tasks t.room_id = some t.tid)

/-- Inductive invariant for the session rows, over the components
(database rows, id counter, in-memory pointer map): row ids are fresh and
pairwise distinct, every *active* row (no `end_time`) is the row its room's
in-memory pointer designates, and every pointer designates an existing row
of its room. -/
def SessInvC (db : List SessionRow) (next : Nat) (ptr : List (Nat × Nat)) : Prop :=
  (∀ r ∈ db, r.session_id < next) ∧
  (db.map SessionRow.session_id).Nodup ∧
  (∀ r ∈ db, r.end_time = none → alookup ptr r.room_id = some r.session_id) ∧
  (∀ room sid, alookup ptr room = some sid →
    ∃ r, dbGet db sid = some r ∧ r.room_id = room)

def SessInv (st : MgrState) : Prop :=
  SessInvC st.db st.nextSessionId st.room_sessions

/-! ## The per-room message dispatcher (app/connection_manager.py)

Each room owns one `asyncio.Queue` (`pending_messages[room]`) and one
consumer task (`process_messages(room)`); producers only ever call
`broadcast_to_room`, which awaits `queue.put`.  The model below is the
per-room slice of that subsystem: the room's connection dict
(insertion-ordered user ids), its bounded queue, and ghost logs recording
the order of enqueues, dequeues, and per-user deliveries. -/

/-- Capacity of `asyncio.Queue(maxsize=100)` (connection_manager.py lines 32 and 132). -/
def queueCapacity : Nat := 100

/-- One queued item: `{"message_data": ..., "target_user_id": ...}`
(connection_manager.py line 144); the payload dict is abstracted to an id. -/
structure QItem where
  payload : Nat
  target : Option Nat
deriving DecidableEq

structure DispatchState where
  conns : List Nat
  queue : List QItem
  enqueuedLog : List QItem
  processedLog : List QItem
  deliveredLog : List (Nat × QItem)
deriving DecidableEq

def initDispatch : DispatchState :=
  { conns := [], queue := [], enqueuedLog := [], processedLog := [],
    deliveredLog := [] }

/-- Target resolution *at dispatch time* (process_messages lines 183-207):
a targeted item goes to its target if connected, else to nobody; an
untargeted item goes to every currently connected user; with nobody
connected the item is discarded. -/
def targetsOf (conns : List Nat) (it : QItem) : List Nat :=
  match it.target with
  | some u => if u ∈ conns then [u] else []
  | none => conns

/-- One atomic step of the room's dispatcher subsystem.
* `connect`: `ConnectionManager.connect` registers the user (a reconnect
  replaces the socket but not the membership key);
* `disconnect`: `ConnectionManager.disconnect` removes the key;
* `enqueue`: `broadcast_to_room` completes `queue.put` — only possible when
  the queue is below capacity, otherwise the producer stays suspended;
* `dispatch`: the single consumer dequeues the head item, resolves targets
  from the live connection dict, and delivery to each target independently
  succeeds (`sendOk u = true`) or fails and is merely logged. -/
inductive DStep : DispatchState → DispatchState → Prop
  | connect (s : DispatchState) (u : Nat) :
      DStep s { s with conns := if u ∈ s.conns then s.conns else s.conns ++ [u] }
  | disconnect (s : DispatchState) (u : Nat) :
      DStep s { s with conns := s.conns.erase u }
  | enqueue (s : DispatchState) (it : QItem)
      (h : s.queue.length < queueCapacity) :
      DStep s { s with queue := s.queue ++ [it],
                       enqueuedLog := s.enqueuedLog ++ [it] }
  | dispatch (s : DispatchState) (it : QItem) (rest : List QItem)
      (sendOk : Nat → Bool) (h : s.queue = it :: rest) :
      DStep s { s with
        queue := rest,
        processedLog := s.processedLog ++ [it],
        deliveredLog := s.deliveredLog ++
          (((targetsOf s.conns it).filter sendOk).map (fun u => (u, it))) }

/-- States reachable from the freshly initialized room. -/
inductive DReach : DispatchState → Prop
  | init : DReach initDispatch
  | step {s s2 : DispatchState} : DReach s → DStep s s2 → DReach s2

/-- The items user `u` has received, in delivery order. -/
def observedBy (s : DispatchState) (u : Nat) : List QItem :=
  (s.deliveredLog.filter (fun p => decide (p.1 = u))).map (fun p => p.2)

/-- Inductive invariant of the dispatcher: the membership dict has no
duplicate keys, the queue never exceeds its capacity, nothing enqueued is
ever lost or reordered (dequeues are exactly a prefix of the enqueue log),
and each user's observations are a subsequence of the dequeue order. -/
def DInv (s : DispatchState) : Prop :=
  s.conns.Nodup ∧
  s.queue.length ≤ queueCapacity ∧
  s.processedLog ++ s.queue = s.enqueuedLog ∧
  (∀ u, (observedBy s u).Sublist s.processedLog)

/-! ## Lemmas about the dictionary and table primitives -/

theorem alookup_aset_self {α : Type} (l : List (Nat × α)) (k : Nat) (v : α) :
    alookup (aset l k v) k = some v := by
  induction l with
  | nil => simp [aset, alookup]
  | cons p rest ih =>
    obtain ⟨k0, v0⟩ := p
    by_cases h : k0 = k
    · simp [aset, alookup, h]
    · simp [aset, alookup, h, ih]

theorem alookup_aset_ne {α : Type} (l : List (Nat × α)) (k k' : Nat) (v : α)
    (h : k' ≠ k) : alookup (aset l k v) k' = alookup l k' := by
  induction l with
  | nil => simp [aset, alookup, Ne.symm h]
  | cons p rest ih =>
    obtain ⟨k0, v0⟩ := p
    by_cases hp : k0 = k
    · subst hp
      simp [aset, alookup, Ne.symm h]
    · simp [aset, alookup, hp, ih]

theorem aset_eq_of_alookup {α : Type} (l : List (Nat × α)) (k : Nat) (v : α)
    (h : alookup l k = some v) : aset l k v = l := by
  induction l with
  | nil => simp [alookup] at h
  | cons p rest ih =>
    obtain ⟨k0, v0⟩ := p
    by_cases hp : k0 = k
    · subst hp
      simp only [alookup, if_pos, Option.some.injEq, if_true, eq_self_iff_true] at h
      subst h
      simp [aset]
    · simp only [alookup, hp, if_false, if_neg, not_false_iff] at h
      simp [aset, hp, ih h]

theorem alookup_aremove_self {α : Type} (l : List (Nat × α)) (k : Nat) :
    alookup (aremove l k) k = none := by
  induction l with
  | nil => simp [aremove, alookup]
  | cons p rest ih =>
    obtain ⟨k0, v0⟩ := p
    by_cases hp : k0 = k
    · simp [aremove, hp, ih]
    · simp [aremove, alookup, hp, ih]

theorem alookup_aremove_ne {α : Type} (l : List (Nat × α)) (k k' : Nat)
    (h : k' ≠ k) : alookup (aremove l k) k' = alookup l k' := by
  induction l with
  | nil => simp [aremove]
  | cons p rest ih =>
    obtain ⟨k0, v0⟩ := p
    by_cases hp : k0 = k
    · subst hp
      simp [aremove, alookup, Ne.symm h, ih]
    · simp [aremove, alookup, hp, ih]

theorem dbGet_mem {db : List SessionRow} {sid : Nat} {r : SessionRow}
    (h : dbGet db sid = some r) : r ∈ db ∧ r.session_id = sid := by
  induction db with
  | nil => simp [dbGet] at h
  | cons s rest ih =>
    by_cases hs : s.session_id = sid
    · simp only [dbGet, hs, if_pos, Option.some.injEq, if_true, eq_self_iff_true] at h
      subst h
      exact ⟨by simp, hs⟩
    · simp only [dbGet, hs, if_false, if_neg, not_false_iff] at h
      exact ⟨List.mem_cons_of_mem _ (ih h).1, (ih h).2⟩

theorem dbGet_eq_none {db : List SessionRow} {sid : Nat}
    (h : ∀ r ∈ db, r.session_id ≠ sid) : dbGet db sid = none := by
  induction db with
  | nil => simp [dbGet]
  | cons s rest ih =>
    simp only [dbGet, h s (by simp), if_false, if_neg]
    exact ih (fun r hr => h r (List.mem_cons_of_mem _ hr))

theorem dbGet_dbSet_self (db : List SessionRow) (r : SessionRow) :
    dbGet (dbSet db r) r.session_id = some r := by
  induction db with
  | nil => simp [dbSet, dbGet]
  | cons s rest ih =>
    by_cases hs : s.session_id = r.session_id
    · simp [dbSet, dbGet, hs]
    · simp [dbSet, dbGet, hs, ih]

theorem dbGet_dbSet_ne (db : List SessionRow) (r : SessionRow) (sid : Nat)
    (h : sid ≠ r.session_id) : dbGet (dbSet db r) sid = dbGet db sid := by
  induction db with
  | nil => simp [dbSet, dbGet, Ne.symm h]
  | cons s rest ih =>
    by_cases hs : s.session_id = r.session_id
    · have hs2 : ¬s.session_id = sid := by rw [hs]; exact Ne.symm h
      simp [dbSet, dbGet, hs, hs2, Ne.symm h]
    · by_cases hs2 : s.session_id = sid
      · simp [dbSet, dbGet, hs, hs2, h]
      · simp [dbSet, dbGet, hs, hs2, ih]

theorem mem_dbSet {db : List SessionRow} {r r' : SessionRow}
    (h : r' ∈ dbSet db r) : r' = r ∨ r' ∈ db := by
  induction db with
  | nil => simpa [dbSet] using h
  | cons s rest ih =>
    by_cases hs : s.session_id = r.session_id
    · simp only [dbSet, hs, if_pos, List.mem_cons] at h
      rcases h with h | h
      · exact Or.inl h
      · exact Or.inr (List.mem_cons_of_mem _ h)
    · simp only [dbSet, hs, if_neg, if_false, List.mem_cons] at h
      rcases h with h | h
      · exact Or.inr (by simp [h])
      · rcases ih h with h2 | h2
        · exact Or.inl h2
        · exact Or.inr (List.mem_cons_of_mem _ h2)

theorem dbSet_map_id {db : List SessionRow} {r0 : SessionRow} (r : SessionRow)
    (hmem : r0 ∈ db) (hid : r0.session_id = r.session_id) :
    (dbSet db r).map SessionRow.session_id = db.map SessionRow.session_id := by
  induction db with
  | nil => simp at hmem
  | cons s rest ih =>
    by_cases hs : s.session_id = r.session_id
    · simp [dbSet, hs]
    · rcases List.mem_cons.mp hmem with h | h
      · exact absurd (h ▸ hid) hs
      · simp [dbSet, hs, ih h]

theorem dbGet_append_left {db1 db2 : List SessionRow} {sid : Nat} {r : SessionRow}
    (h : dbGet db1 sid = some r) : dbGet (db1 ++ db2) sid = some r := by
  induction db1 with
  | nil => simp [dbGet] at h
  | cons s rest ih =>
    by_cases hs : s.session_id = sid
    · simp only [dbGet, hs, if_pos, Option.some.injEq, if_true, eq_self_iff_true] at h
      subst h
      simp [dbGet, hs]
    · simp only [dbGet, hs, if_false, if_neg, not_false_iff, List.cons_append] at h ⊢
      exact ih h

theorem dbGet_append_right {db1 db2 : List SessionRow} {sid : Nat}
    (h : dbGet db1 sid = none) : dbGet (db1 ++ db2) sid = dbGet db2 sid := by
  induction db1 with
  | nil => simp
  | cons s rest ih =>
    by_cases hs : s.session_id = sid
    · simp [dbGet, hs] at h
    · simp only [dbGet, hs, if_neg, if_false, List.cons_append] at h ⊢
      exact ih h

/-- Two rows of a table with `Nodup` ids and the same id are the same row. -/
theorem row_eq_of_id_eq {db : List SessionRow} {r1 r2 : SessionRow}
    (hnd : (db.map SessionRow.session_id).Nodup)
    (h1 : r1 ∈ db) (h2 : r2 ∈ db) (hid : r1.session_id = r2.session_id) :
    r1 = r2 := by
  induction db with
  | nil => simp at h1
  | cons s rest ih =>
    simp only [List.map_cons, List.nodup_cons] at hnd
    rcases List.mem_cons.mp h1 with e1 | e1 <;> rcases List.mem_cons.mp h2 with e2 | e2
    · exact e1.trans e2.symm
    · exfalso
      apply hnd.1
      have hm : r2.session_id ∈ List.map SessionRow.session_id rest :=
        List.mem_map_of_mem SessionRow.session_id e2
      rw [e1] at hid
      rw [hid]
      exact hm
    · exfalso
      apply hnd.1
      have hm : r1.session_id ∈ List.map SessionRow.session_id rest :=
        List.mem_map_of_mem SessionRow.session_id e1
      rw [e2] at hid
      rw [← hid]
      exact hm
    · exact ih hnd.2 e1 e2

theorem cancelTask_map_tid (ts : List TimerTask) (tid : Nat) :
    (cancelTask ts tid).map TimerTask.tid = ts.map TimerTask.tid := by
  induction ts with
  | nil => rfl
  | cons t rest ih =>
    simp only [cancelTask, List.map_cons] at ih ⊢
    by_cases ht : t.tid = tid
    · simp [if_pos ht, ih]
    · simp [if_neg ht, ih]

theorem live_of_mem_cancelTask {ts : List TimerTask} {tid : Nat} {t : TimerTask}
    (h : t ∈ cancelTask ts tid) (hl : t.live = true) : t ∈ ts ∧ t.tid ≠ tid := by
  rcases List.mem_map.mp h with ⟨t0, ht0, he⟩
  by_cases h0 : t0.tid = tid
  · rw [if_pos h0] at he
    rw [← he] at hl
    simp at hl
  · rw [if_neg h0] at he
    exact ⟨he ▸ ht0, he ▸ h0⟩

theorem tid_of_mem_cancelTask {ts : List TimerTask} {tid : Nat} {t : TimerTask}
    (h : t ∈ cancelTask ts tid) : ∃ t0 ∈ ts, t.tid = t0.tid := by
  rcases List.mem_map.mp h with ⟨t0, ht0, he⟩
  refine ⟨t0, ht0, ?_⟩
  by_cases h0 : t0.tid = tid
  · rw [if_pos h0] at he; rw [← he, h0]
  · rw [if_neg h0] at he; rw [← he]

/-- A list map over a filter: helper to bound how many rows can satisfy a
predicate that pins down a `Nodup` projection. -/
theorem filter_length_le_one {α : Type} (f : α → Nat) (p : α → Bool) (c : Nat) :
    ∀ (l : List α), (l.map f).Nodup → (∀ x ∈ l, p x = true → f x = c) →
      (l.filter p).length ≤ 1 := by
  intro l
  induction l with
  | nil => intro _ _; simp
  | cons a rest ih =>
    intro hnd hall
    simp only [List.map_cons, List.nodup_cons] at hnd
    by_cases hp : p a = true
    · have hrest : rest.filter p = [] := by
        apply List.filter_eq_nil_iff.mpr
        intro x hx hpx
        have hfx : f x = c := hall x (List.mem_cons_of_mem _ hx) (by simpa using hpx)
        have hfa : f a = c := hall a (by simp) hp
        exact hnd.1 (by rw [hfa, ← hfx]; exact List.mem_map_of_mem f hx)
      simp [List.filter_cons, hp, hrest]
    · simp only [List.filter_cons, hp, if_false, Bool.false_eq_true, if_neg]
      exact ih hnd.2 (fun x hx => hall x (List.mem_cons_of_mem _ hx))

/-! ## Timer-task invariant (claim C5)

The inductive invariant: task ids are fresh and pairwise distinct, and a
live checker task is always the one registered in `session_tasks` for its
room.  Consequently two live tasks for one room never coexist. -/

theorem timerInv_init : TimerInv initState := by
  refine ⟨?_, ?_, ?_⟩ <;> simp [initState]

theorem cancelRoomTask_eq_none {st : MgrState} {room : Nat}
    (h : alookup st.session_tasks room = none) : cancelRoomTask st room = st := by
  unfold cancelRoomTask
  rw [h]

theorem cancelRoomTask_eq_some {st : MgrState} {room tid : Nat}
    (h : alookup st.session_tasks room = some tid) :
    cancelRoomTask st room = { st with tasks := cancelTask st.tasks tid } := by
  unfold cancelRoomTask
  rw [h]

theorem clear_eq_none {st : MgrState} {room : Nat}
    (h : alookup st.session_tasks room = none) :
    clear_room_session_data st room =
      { st with room_sessions := aremove st.room_sessions room,
                session_responses := aremove st.session_responses room } := by
  unfold clear_room_session_data
  simp only
  rw [show alookup ({ st with room_sessions := aremove st.room_sessions room } :
        MgrState).session_tasks room = none from h]

theorem clear_eq_some {st : MgrState} {room tid : Nat}
    (h : alookup st.session_tasks room = some tid) :
    clear_room_session_data st room =
      { st with room_sessions := aremove st.room_sessions room,
                tasks := cancelTask st.tasks tid,
                session_tasks := aremove st.session_tasks room,
                session_responses := aremove st.session_responses room } := by
  unfold clear_room_session_data
  simp only
  rw [show alookup ({ st with room_sessions := aremove st.room_sessions room } :
        MgrState).session_tasks room = some tid from h]

theorem timerInv_cancelRoomTask {st : MgrState} (h : TimerInv st) (room : Nat) :
    TimerInv (cancelRoomTask st room) := by
  rcases hreg : alookup st.session_tasks room with _ | tid
  · rw [cancelRoomTask_eq_none hreg]
    exact h
  · rw [cancelRoomTask_eq_some hreg]
    obtain ⟨h1, h2, h3⟩ := h
    refine ⟨?_, ?_, ?_⟩
    · intro t ht
      rcases tid_of_mem_cancelTask ht with ⟨t0, ht0, he⟩
      exact he ▸ h1 t0 ht0
    · simpa [cancelTask_map_tid] using h2
    · intro t ht hl
      rcases live_of_mem_cancelTask ht hl with ⟨hmem, _⟩
      exact h3 t hmem hl

/-- After the cancel-if-registered pattern no task of the room is live. -/
theorem no_live_after_cancelRoomTask {st : MgrState} (h : TimerInv st) (room : Nat) :
    ∀ t ∈ (cancelRoomTask st room).tasks, t.room_id = room → t.live = false := by
  intro t ht hroom
  obtain ⟨_, _, h3⟩ := h
  rcases hreg : alookup st.session_tasks room with _ | tid
  · rw [cancelRoomTask_eq_none hreg] at ht
    by_contra hlive
    have hl : t.live = true := by revert hlive; cases t.live <;> simp
    have hx := h3 t ht hl
    rw [hroom, hreg] at hx
    simp at hx
  · rw [cancelRoomTask_eq_some hreg] at ht
    by_contra hlive
    have hl : t.live = true := by revert hlive; cases t.live <;> simp
    rcases live_of_mem_cancelTask ht hl with ⟨hmem, hne⟩
    have hx := h3 t hmem hl
    rw [hroom, hreg] at hx
    injection hx with hx2
    exact hne hx2.symm

theorem cancelRoomTask_next (st : MgrState) (room : Nat) :
    (cancelRoomTask st room).nextTaskId = st.nextTaskId := by
  rcases hreg : alookup st.session_tasks room with _ | tid
  · rw [cancelRoomTask_eq_none hreg]
  · rw [cancelRoomTask_eq_some hreg]

theorem cancelRoomTask_session_tasks (st : MgrState) (room : Nat) :
    (cancelRoomTask st room).session_tasks = st.session_tasks := by
  rcases hreg : alookup st.session_tasks room with _ | tid
  · rw [cancelRoomTask_eq_none hreg]
  · rw [cancelRoomTask_eq_some hreg]

theorem timerInv_restartTimer {st : MgrState} (h : TimerInv st) (room sid : Nat) :
    TimerInv (restartTimer st room sid) := by
  have hc := timerInv_cancelRoomTask h room
  have hnl := no_live_after_cancelRoomTask h room
  obtain ⟨h1, h2, h3⟩ := hc
  refine ⟨?_, ?_, ?_⟩
  · intro t ht
    simp only [restartTimer, spawnTimerTask, List.mem_append, List.mem_singleton] at ht
    rcases ht with ht | ht
    · exact Nat.lt_succ_of_lt (h1 t ht)
    · subst ht
      exact Nat.lt_succ_self _
  · simp only [restartTimer, spawnTimerTask, List.map_append, List.map_cons, List.map_nil]
    rw [List.nodup_append]
    refine ⟨h2, by simp, ?_⟩
    intro a ha hb
    simp only [List.mem_singleton] at hb
    rcases List.mem_map.mp ha with ⟨t, ht, he⟩
    have hlt := h1 t ht
    rw [he, hb] at hlt
    exact Nat.lt_irrefl _ hlt
  · intro t ht hl
    simp only [restartTimer, spawnTimerTask, List.mem_append, List.mem_singleton] at ht ⊢
    rcases ht with ht | ht
    · have hroom : t.room_id ≠ room := by
        intro hcon
        rw [hnl t ht hcon] at hl
        cases hl
      rw [alookup_aset_ne _ _ _ _ hroom]
      exact h3 t ht hl
    · subst ht
      simpa using alookup_aset_self (cancelRoomTask st room).session_tasks room _

theorem timerInv_clear {st : MgrState} (h : TimerInv st) (room : Nat) :
    TimerInv (clear_room_session_data st room) := by
  obtain ⟨h1, h2, h3⟩ := h
  rcases hreg : alookup st.session_tasks room with _ | tid
  · rw [clear_eq_none hreg]
    exact ⟨h1, h2, h3⟩
  · rw [clear_eq_some hreg]
    refine ⟨?_, ?_, ?_⟩
    · intro t ht
      rcases tid_of_mem_cancelTask ht with ⟨t0, ht0, he⟩
      exact he ▸ h1 t0 ht0
    · simpa [cancelTask_map_tid] using h2
    · intro t ht hl
      rcases live_of_mem_cancelTask ht hl with ⟨hmem, hne⟩
      have hreg2 := h3 t hmem hl
      have hroom : t.room_id ≠ room := by
        intro hcon
        rw [hcon, hreg] at hreg2
        injection hreg2 with hx
        exact hne hx.symm
      rw [alookup_aremove_ne _ _ _ hroom]
      exact hreg2

theorem timerInv_of_eq {st st2 : MgrState} (h : TimerInv st)
    (ht : st2.tasks = st.tasks) (hn : st2.nextTaskId = st.nextTaskId)
    (hs : st2.session_tasks = st.session_tasks) : TimerInv st2 := by
  obtain ⟨h1, h2, h3⟩ := h
  refine ⟨?_, ?_, ?_⟩
  · intro t m
    rw [ht] at m
    rw [hn]
    exact h1 t m
  · rw [ht]
    exact h2
  · intro t m hl
    rw [ht] at m
    rw [hs]
    exact h3 t m hl

theorem timerInv_cancelAny {st : MgrState} (h : TimerInv st) (tid : Nat) :
    TimerInv { st with tasks := cancelTask st.tasks tid } := by
  obtain ⟨h1, h2, h3⟩ := h
  refine ⟨?_, ?_, ?_⟩
  · intro t ht
    rcases tid_of_mem_cancelTask ht with ⟨t0, ht0, he⟩
    exact he ▸ h1 t0 ht0
  · simpa [cancelTask_map_tid] using h2
  · intro t ht hl
    rcases live_of_mem_cancelTask ht hl with ⟨hmem, _⟩
    exact h3 t hmem hl

theorem timerInv_restart_outer {st stb st2 : MgrState} (h : TimerInv st)
    (room sid : Nat)
    (ht : st2.tasks = (restartTimer stb room sid).tasks)
    (hn : st2.nextTaskId = (restartTimer stb room sid).nextTaskId)
    (hs : st2.session_tasks = (restartTimer stb room sid).session_tasks)
    (hbt : stb.tasks = st.tasks) (hbn : stb.nextTaskId = st.nextTaskId)
    (hbs : stb.session_tasks = st.session_tasks) :
    TimerInv st2 :=
  timerInv_of_eq (timerInv_restartTimer (timerInv_of_eq h hbt hbn hbs) room sid) ht hn hs

theorem timerInv_clear_outer {st stb st2 : MgrState} (h : TimerInv st) (room : Nat)
    (ht : st2.tasks = (clear_room_session_data stb room).tasks)
    (hn : st2.nextTaskId = (clear_room_session_data stb room).nextTaskId)
    (hs : st2.session_tasks = (clear_room_session_data stb room).session_tasks)
    (hbt : stb.tasks = st.tasks) (hbn : stb.nextTaskId = st.nextTaskId)
    (hbs : stb.session_tasks = st.session_tasks) :
    TimerInv st2 :=
  timerInv_of_eq (timerInv_clear (timerInv_of_eq h hbt hbn hbs) room) ht hn hs

theorem timerInv_transition {st : MgrState} (h : TimerInv st) (room : Nat)
    (ended : SessionRow) (conns : List Nat) (now : Nat) (ok1 ok2 : Bool) :
    TimerInv (exceptState (transition_to_emotion_topic st room ended conns now ok1 ok2)) := by
  unfold transition_to_emotion_topic
  rcases ok1 with _ | _
  · simpa [exceptState] using h
  · simp only [if_true]
    rcases conns with _ | ⟨ua, rest⟩
    · exact timerInv_of_eq h rfl rfl rfl
    rcases rest with _ | ⟨ub, rest2⟩
    · exact timerInv_of_eq h rfl rfl rfl
    rcases ok2 with _ | _
    · simpa [exceptState] using timerInv_of_eq h rfl rfl rfl
    · simp only [if_true, exceptState]
      exact timerInv_restart_outer h room st.nextSessionId rfl rfl rfl rfl rfl rfl

theorem timerInv_transition_ok {st st1 : MgrState} {msgs : List Msg} (room : Nat)
    (ended : SessionRow) (conns : List Nat) (now : Nat) (ok1 ok2 : Bool)
    (heq : transition_to_emotion_topic st room ended conns now ok1 ok2 = .ok (st1, msgs))
    (h : TimerInv st) :
    TimerInv st1 := by
  have hv := timerInv_transition h room ended conns now ok1 ok2
  rw [heq] at hv
  exact hv

theorem timerInv_transition_err {st stE : MgrState} (room : Nat)
    (ended : SessionRow) (conns : List Nat) (now : Nat) (ok1 ok2 : Bool)
    (heq : transition_to_emotion_topic st room ended conns now ok1 ok2 = .error stE)
    (h : TimerInv st) :
    TimerInv stE := by
  have hv := timerInv_transition h room ended conns now ok1 ok2
  rw [heq] at hv
  exact hv

theorem timerInv_endchat {st : MgrState} (h : TimerInv st) (room : Nat)
    (ended : SessionRow) (now : Nat) (ok : Bool) :
    TimerInv (exceptState (end_chat_after_emotion_extension st room ended now ok)) := by
  unfold end_chat_after_emotion_extension
  rcases ok with _ | _
  · simpa [exceptState] using h
  · simp only [if_true, exceptState]
    exact timerInv_clear_outer h room rfl rfl rfl rfl rfl rfl

theorem timerInv_endchat_ok {st st1 : MgrState} {msgs : List Msg} (room : Nat)
    (ended : SessionRow) (now : Nat) (ok : Bool)
    (heq : end_chat_after_emotion_extension st room ended now ok = .ok (st1, msgs))
    (h : TimerInv st) :
    TimerInv st1 := by
  have hv := timerInv_endchat h room ended now ok
  rw [heq] at hv
  exact hv

theorem timerInv_endchat_err {st stE : MgrState} (room : Nat)
    (ended : SessionRow) (now : Nat) (ok : Bool)
    (heq : end_chat_after_emotion_extension st room ended now ok = .error stE)
    (h : TimerInv st) :
    TimerInv stE := by
  have hv := timerInv_endchat h room ended now ok
  rw [heq] at hv
  exact hv

theorem timerInv_start {st : MgrState} (h : TimerInv st) (room uA uB now : Nat)
    (ok : Bool) :
    TimerInv (start_new_initial_session st room uA uB now ok).1 := by
  unfold start_new_initial_session
  rcases hx : alookup st.room_sessions room with _ | sid
  · rcases ok with _ | _
    · simpa using h
    · simp only [if_true]
      exact timerInv_restart_outer h room st.nextSessionId rfl rfl rfl rfl rfl rfl
  · simpa using h

theorem timerInv_vote {st : MgrState} (h : TimerInv st) (room user : Nat)
    (response : Bool) (conns : List Nat) (now : Nat) (ok1 ok2 : Bool) :
    TimerInv (add_session_response st room user response conns now ok1 ok2).1 := by
  unfold add_session_response
  dsimp only
  split
  · exact timerInv_of_eq h rfl rfl rfl
  · split
    · exact timerInv_of_eq h rfl rfl rfl
    · split
      · exact timerInv_of_eq h rfl rfl rfl
      · split
        · split
          · exact timerInv_of_eq h rfl rfl rfl
          · split
            · rcases ok1 with _ | _
              · simpa using timerInv_of_eq h rfl rfl rfl
              · simp only [if_true]
                exact timerInv_restart_outer h room _ rfl rfl rfl rfl rfl rfl
            · split
              · rename_i st1 msgs heq
                split at heq
                · exact timerInv_of_eq
                    (timerInv_transition_ok _ _ conns now ok1 ok2 heq
                      (timerInv_of_eq h rfl rfl rfl)) rfl rfl rfl
                · exact timerInv_of_eq
                    (timerInv_endchat_ok _ _ now ok1 heq
                      (timerInv_of_eq h rfl rfl rfl)) rfl rfl rfl
              · rename_i stE heq
                split at heq
                · exact timerInv_transition_err _ _ conns now ok1 ok2 heq
                    (timerInv_of_eq h rfl rfl rfl)
                · exact timerInv_endchat_err _ _ now ok1 heq
                    (timerInv_of_eq h rfl rfl rfl)
        · exact timerInv_of_eq h rfl rfl rfl

theorem timerInv_checkstep {st : MgrState} (h : TimerInv st) (room targetSid : Nat)
    (conns : List Nat) (now : Nat) (ok1 ok2 : Bool) :
    TimerInv (check_session_timeout_step st room targetSid conns now ok1 ok2).1 := by
  unfold check_session_timeout_step
  split
  · exact h
  · split
    · split
      · exact h
      · split
        · split
          · split
            · rename_i st1 msgs heq
              split at heq
              · exact timerInv_transition_ok _ _ conns now ok1 ok2 heq h
              · exact timerInv_endchat_ok _ _ now ok1 heq h
            · rename_i stE heq
              split at heq
              · exact timerInv_transition_err _ _ conns now ok1 ok2 heq h
              · exact timerInv_endchat_err _ _ now ok1 heq h
          · exact timerInv_of_eq h rfl rfl rfl
        · exact h
    · exact h

theorem timerInv_fire {st : MgrState} (h : TimerInv st) (tid : Nat)
    (conns : List Nat) (now : Nat) (ok1 ok2 : Bool) :
    TimerInv (timer_fire st tid conns now ok1 ok2).1 := by
  unfold timer_fire
  split
  · exact h
  · split
    · dsimp only
      split
      · exact timerInv_checkstep h _ _ conns now ok1 ok2
      · exact timerInv_cancelAny (timerInv_checkstep h _ _ conns now ok1 ok2) tid
    · exact h

theorem timerInv_end_session {st : MgrState} (h : TimerInv st) (room now : Nat)
    (ok : Bool) : TimerInv (end_session_for_room st room now ok) := by
  unfold end_session_for_room
  dsimp only
  apply timerInv_clear
  split
  · exact h
  · split
    · exact h
    · split
      · split
        · exact timerInv_of_eq h rfl rfl rfl
        · exact h
      · exact h

theorem timerInv_apply {st : MgrState} (h : TimerInv st) (e : Event) :
    TimerInv (applyEvent st e).1 := by
  rcases e with ⟨room, uA, uB, now, ok⟩ | ⟨room, user, choice, conns, now, ok1, ok2⟩ |
    ⟨tid, conns, now, ok1, ok2⟩ | ⟨room, now, ok⟩
  · exact timerInv_start h room uA uB now ok
  · exact timerInv_vote h room user choice conns now ok1 ok2
  · exact timerInv_fire h tid conns now ok1 ok2
  · exact timerInv_end_session h room now ok

theorem timerInv_run (es : List Event) : TimerInv (runEvents initState es) := by
  suffices hgen : ∀ (st : MgrState), TimerInv st → TimerInv (runEvents st es) from
    hgen initState timerInv_init
  induction es with
  | nil => intro st h; exact h
  | cons e rest ih =>
    intro st h
    exact ih (applyEvent st e).1 (timerInv_apply h e)

theorem live_timers_le_one {st : MgrState} (h : TimerInv st) (room : Nat) :
    (st.tasks.filter (fun t => decide (t.room_id = room) && t.live)).length ≤ 1 := by
  obtain ⟨h1, h2, h3⟩ := h
  rcases hreg : alookup st.session_tasks room with _ | tid
  · have hnil : st.tasks.filter (fun t => decide (t.room_id = room) && t.live) = [] := by
      apply List.filter_eq_nil_iff.mpr
      intro t ht hp
      simp only [Bool.and_eq_true, decide_eq_true_eq] at hp
      have hx := h3 t ht hp.2
      rw [hp.1, hreg] at hx
      simp at hx
    simp [hnil]
  · apply filter_length_le_one TimerTask.tid _ tid st.tasks h2
    intro x hx hp
    simp only [Bool.and_eq_true, decide_eq_true_eq] at hp
    have hreg2 := h3 x hx hp.2
    rw [hp.1, hreg] at hreg2
    injection hreg2 with hh
    exact hh.symm

/-! ## Field lemmas for the compound state operations -/

theorem cancelRoomTask_db (st : MgrState) (room : Nat) :
    (cancelRoomTask st room).db = st.db := by
  rcases h : alookup st.session_tasks room with _ | tid
  · rw [cancelRoomTask_eq_none h]
  · rw [cancelRoomTask_eq_some h]

theorem cancelRoomTask_nextSessionId (st : MgrState) (room : Nat) :
    (cancelRoomTask st room).nextSessionId = st.nextSessionId := by
  rcases h : alookup st.session_tasks room with _ | tid
  · rw [cancelRoomTask_eq_none h]
  · rw [cancelRoomTask_eq_some h]

theorem cancelRoomTask_room_sessions (st : MgrState) (room : Nat) :
    (cancelRoomTask st room).room_sessions = st.room_sessions := by
  rcases h : alookup st.session_tasks room with _ | tid
  · rw [cancelRoomTask_eq_none h]
  · rw [cancelRoomTask_eq_some h]

theorem cancelRoomTask_session_responses (st : MgrState) (room : Nat) :
    (cancelRoomTask st room).session_responses = st.session_responses := by
  rcases h : alookup st.session_tasks room with _ | tid
  · rw [cancelRoomTask_eq_none h]
  · rw [cancelRoomTask_eq_some h]

theorem restartTimer_db (st : MgrState) (room sid : Nat) :
    (restartTimer st room sid).db = st.db := by
  simp only [restartTimer, spawnTimerTask]
  exact cancelRoomTask_db st room

theorem restartTimer_nextSessionId (st : MgrState) (room sid : Nat) :
    (restartTimer st room sid).nextSessionId = st.nextSessionId := by
  simp only [restartTimer, spawnTimerTask]
  exact cancelRoomTask_nextSessionId st room

theorem restartTimer_room_sessions (st : MgrState) (room sid : Nat) :
    (restartTimer st room sid).room_sessions = st.room_sessions := by
  simp only [restartTimer, spawnTimerTask]
  exact cancelRoomTask_room_sessions st room

theorem restartTimer_session_responses (st : MgrState) (room sid : Nat) :
    (restartTimer st room sid).session_responses = st.session_responses := by
  simp only [restartTimer, spawnTimerTask]
  exact cancelRoomTask_session_responses st room

theorem clear_db (st : MgrState) (room : Nat) :
    (clear_room_session_data st room).db = st.db := by
  rcases h : alookup st.session_tasks room with _ | tid
  · rw [clear_eq_none h]
  · rw [clear_eq_some h]

theorem clear_nextSessionId (st : MgrState) (room : Nat) :
    (clear_room_session_data st room).nextSessionId = st.nextSessionId := by
  rcases h : alookup st.session_tasks room with _ | tid
  · rw [clear_eq_none h]
  · rw [clear_eq_some h]

theorem clear_room_sessions (st : MgrState) (room : Nat) :
    (clear_room_session_data st room).room_sessions = aremove st.room_sessions room := by
  rcases h : alookup st.session_tasks room with _ | tid
  · rw [clear_eq_none h]
  · rw [clear_eq_some h]

theorem clear_session_responses (st : MgrState) (room : Nat) :
    (clear_room_session_data st room).session_responses =
      aremove st.session_responses room := by
  rcases h : alookup st.session_tasks room with _ | tid
  · rw [clear_eq_none h]
  · rw [clear_eq_some h]

theorem clear_session_tasks_lookup (st : MgrState) (room : Nat) :
    alookup (clear_room_session_data st room).session_tasks room = none := by
  rcases h : alookup st.session_tasks room with _ | tid
  · rw [clear_eq_none h]
    exact h
  · rw [clear_eq_some h]
    exact alookup_aremove_self _ _

/-! ## Preservation of the session-row invariant -/

theorem sessInvC_start {db : List SessionRow} {next : Nat} {ptr : List (Nat × Nat)}
    (h : SessInvC db next ptr) (room uA uB now : Nat)
    (hx : alookup ptr room = none) :
    SessInvC (db ++ [⟨next, room, uA, uB, .situation, now, none, false⟩])
      (next + 1) (aset ptr room next) := by
  obtain ⟨h1, h2, h3, h4⟩ := h
  refine ⟨?_, ?_, ?_, ?_⟩
  · intro r hr
    rcases List.mem_append.mp hr with hr | hr
    · exact Nat.lt_succ_of_lt (h1 r hr)
    · simp only [List.mem_singleton] at hr
      subst hr
      exact Nat.lt_succ_self _
  · rw [List.map_append, List.nodup_append]
    refine ⟨h2, by simp, ?_⟩
    intro a ha hb
    simp only [List.map_cons, List.map_nil, List.mem_singleton] at hb
    rcases List.mem_map.mp ha with ⟨r, hr, he⟩
    have hlt := h1 r hr
    rw [he, hb] at hlt
    exact Nat.lt_irrefl _ hlt
  · intro r hr hend
    rcases List.mem_append.mp hr with hr | hr
    · have hp := h3 r hr hend
      have hne : r.room_id ≠ room := by
        intro hcon
        rw [hcon, hx] at hp
        simp at hp
      rw [alookup_aset_ne _ _ _ _ hne]
      exact hp
    · simp only [List.mem_singleton] at hr
      subst hr
      simpa using alookup_aset_self ptr room next
  · intro room2 sid2 hp
    by_cases hroom : room2 = room
    · subst hroom
      rw [alookup_aset_self] at hp
      injection hp with hp
      subst hp
      refine ⟨⟨next, room2, uA, uB, .situation, now, none, false⟩, ?_, rfl⟩
      have hnone : dbGet db next = none :=
        dbGet_eq_none (fun r hr => Nat.ne_of_lt (h1 r hr))
      rw [dbGet_append_right hnone]
      simp [dbGet]
    · rw [alookup_aset_ne _ _ _ _ hroom] at hp
      rcases h4 room2 sid2 hp with ⟨r, hget, hr⟩
      exact ⟨r, dbGet_append_left hget, hr⟩

theorem sessInvC_extend {db : List SessionRow} {next : Nat} {ptr : List (Nat × Nat)}
    {room sid : Nat} {row : SessionRow} (h : SessInvC db next ptr)
    (hptr : alookup ptr room = some sid) (hget : dbGet db sid = some row) (now : Nat) :
    SessInvC (dbSet db { row with extension_used := true, start_time := now })
      next (aset ptr room row.session_id) := by
  obtain ⟨h1, h2, h3, h4⟩ := h
  have hsid : row.session_id = sid := (dbGet_mem hget).2
  have hmem : row ∈ db := (dbGet_mem hget).1
  have hpe : aset ptr room row.session_id = ptr := by
    rw [hsid]
    exact aset_eq_of_alookup _ _ _ hptr
  rw [hpe]
  refine ⟨?_, ?_, ?_, ?_⟩
  · intro r hr
    rcases mem_dbSet hr with hr | hr
    · subst hr
      exact h1 row hmem
    · exact h1 r hr
  · rw [dbSet_map_id { row with extension_used := true, start_time := now } hmem rfl]
    exact h2
  · intro r hr hend
    rcases mem_dbSet hr with hr | hr
    · subst hr
      exact h3 row hmem hend
    · exact h3 r hr hend
  · intro room2 sid2 hp
    rcases h4 room2 sid2 hp with ⟨r, hget2, hr⟩
    by_cases hs : sid2 = row.session_id
    · subst hs
      refine ⟨{ row with extension_used := true, start_time := now },
        dbGet_dbSet_self db _, ?_⟩
      rw [hsid, hget] at hget2
      injection hget2 with hget2
      subst hget2
      exact hr
    · rw [dbGet_dbSet_ne db { row with extension_used := true, start_time := now } sid2 hs]
      exact ⟨r, hget2, hr⟩

theorem sessInvC_close_only {db : List SessionRow} {next : Nat} {ptr : List (Nat × Nat)}
    {sid : Nat} {row : SessionRow} (h : SessInvC db next ptr)
    (hget : dbGet db sid = some row) (now : Nat) :
    SessInvC (dbSet db { row with end_time := some now }) next ptr := by
  obtain ⟨h1, h2, h3, h4⟩ := h
  have hsid : row.session_id = sid := (dbGet_mem hget).2
  have hmem : row ∈ db := (dbGet_mem hget).1
  refine ⟨?_, ?_, ?_, ?_⟩
  · intro r hr
    rcases mem_dbSet hr with hr | hr
    · subst hr
      exact h1 row hmem
    · exact h1 r hr
  · rw [dbSet_map_id { row with end_time := some now } hmem rfl]
    exact h2
  · intro r hr hend
    rcases mem_dbSet hr with hr | hr
    · subst hr
      simp at hend
    · exact h3 r hr hend
  · intro room2 sid2 hp
    rcases h4 room2 sid2 hp with ⟨r, hget2, hr⟩
    by_cases hs : sid2 = row.session_id
    · subst hs
      refine ⟨{ row with end_time := some now }, dbGet_dbSet_self db _, ?_⟩
      rw [hsid, hget] at hget2
      injection hget2 with hget2
      subst hget2
      exact hr
    · rw [dbGet_dbSet_ne db { row with end_time := some now } sid2 hs]
      exact ⟨r, hget2, hr⟩

/-- After closing the pointed row, no row of that room in the updated table
is still active. -/
theorem no_active_after_close {db : List SessionRow} {next : Nat}
    {ptr : List (Nat × Nat)} {room sid : Nat} {row : SessionRow}
    (h : SessInvC db next ptr)
    (hptr : alookup ptr room = some sid) (hget : dbGet db sid = some row)
    (now : Nat) :
    ∀ r ∈ dbSet db { row with end_time := some now }, r.room_id = room →
      r.end_time ≠ none := by
  obtain ⟨h1, h2, h3, h4⟩ := h
  have hsid : row.session_id = sid := (dbGet_mem hget).2
  have hmem : row ∈ db := (dbGet_mem hget).1
  intro r hr hroom hend
  have hnd2 : ((dbSet db { row with end_time := some now }).map
      SessionRow.session_id).Nodup := by
    rw [dbSet_map_id { row with end_time := some now } hmem rfl]
    exact h2
  have hclosedmem : ({ row with end_time := some now } : SessionRow) ∈
      dbSet db { row with end_time := some now } :=
    (dbGet_mem (dbGet_dbSet_self db _)).1
  rcases mem_dbSet hr with hr2 | hr2
  · rw [hr2] at hend
    simp at hend
  · have hp := h3 r hr2 hend
    rw [hroom, hptr] at hp
    injection hp with hp
    have hreq : r = { row with end_time := some now } := by
      apply row_eq_of_id_eq hnd2 hr hclosedmem
      show r.session_id = row.session_id
      rw [hsid, ← hp]
    rw [hreq] at hend
    simp at hend

theorem sessInvC_close_clear {db : List SessionRow} {next : Nat}
    {ptr : List (Nat × Nat)} {room sid : Nat} {row : SessionRow}
    (h : SessInvC db next ptr)
    (hptr : alookup ptr room = some sid) (hget : dbGet db sid = some row)
    (now : Nat) :
    SessInvC (dbSet db { row with end_time := some now }) next
      (aremove ptr room) := by
  have hno := no_active_after_close h hptr hget now
  have hco := sessInvC_close_only h hget now
  obtain ⟨h1, h2, h3, h4⟩ := hco
  obtain ⟨g1, g2, g3, g4⟩ := h
  have hsid : row.session_id = sid := (dbGet_mem hget).2
  refine ⟨h1, h2, ?_, ?_⟩
  · intro r hr hend
    by_cases hroom : r.room_id = room
    · exact absurd hend (hno r hr hroom)
    · rw [alookup_aremove_ne _ _ _ hroom]
      exact h3 r hr hend
  · intro room2 sid2 hp
    by_cases hroom : room2 = room
    · subst hroom
      rw [alookup_aremove_self] at hp
      simp at hp
    · rw [alookup_aremove_ne _ _ _ hroom] at hp
      exact h4 room2 sid2 hp

theorem sessInvC_trans {db : List SessionRow} {next : Nat}
    {ptr : List (Nat × Nat)} {room sid : Nat} {row : SessionRow}
    (h : SessInvC db next ptr)
    (hptr : alookup ptr room = some sid) (hget : dbGet db sid = some row)
    (ua ub now : Nat) :
    SessInvC (dbSet db { row with end_time := some now } ++
        [⟨next, room, ua, ub, .emotion, now, none, false⟩])
      (next + 1) (aset ptr room next) := by
  have hno := no_active_after_close h hptr hget now
  have hco := sessInvC_close_only h hget now
  obtain ⟨h1, h2, h3, h4⟩ := hco
  obtain ⟨g1, g2, g3, g4⟩ := h
  refine ⟨?_, ?_, ?_, ?_⟩
  · intro r hr
    rcases List.mem_append.mp hr with hr | hr
    · exact Nat.lt_succ_of_lt (h1 r hr)
    · simp only [List.mem_singleton] at hr
      subst hr
      exact Nat.lt_succ_self _
  · rw [List.map_append, List.nodup_append]
    refine ⟨h2, by simp, ?_⟩
    intro a ha hb
    simp only [List.map_cons, List.map_nil, List.mem_singleton] at hb
    rcases List.mem_map.mp ha with ⟨r, hr, he⟩
    have hlt := h1 r hr
    rw [he, hb] at hlt
    exact Nat.lt_irrefl _ hlt
  · intro r hr hend
    rcases List.mem_append.mp hr with hr | hr
    · by_cases hroom : r.room_id = room
      · exact absurd hend (hno r hr hroom)
      · rw [alookup_aset_ne _ _ _ _ hroom]
        exact h3 r hr hend
    · simp only [List.mem_singleton] at hr
      subst hr
      simpa using alookup_aset_self ptr room next
  · intro room2 sid2 hp
    by_cases hroom : room2 = room
    · subst hroom
      rw [alookup_aset_self] at hp
      injection hp with hp
      subst hp
      refine ⟨⟨next, room2, ua, ub, .emotion, now, none, false⟩, ?_, rfl⟩
      have hnone : dbGet (dbSet db { row with end_time := some now }) next = none :=
        dbGet_eq_none (fun r hr => Nat.ne_of_lt (h1 r hr))
      rw [dbGet_append_right hnone]
      simp [dbGet]
    · rw [alookup_aset_ne _ _ _ _ hroom] at hp
      rcases h4 room2 sid2 hp with ⟨r, hget2, hr⟩
      exact ⟨r, dbGet_append_left hget2, hr⟩

theorem sessInvC_aremove {db : List SessionRow} {next : Nat}
    {ptr : List (Nat × Nat)} {room : Nat} (h : SessInvC db next ptr)
    (hno : ∀ r ∈ db, r.room_id = room → r.end_time ≠ none) :
    SessInvC db next (aremove ptr room) := by
  obtain ⟨h1, h2, h3, h4⟩ := h
  refine ⟨h1, h2, ?_, ?_⟩
  · intro r hr hend
    by_cases hroom : r.room_id = room
    · exact absurd hend (hno r hr hroom)
    · rw [alookup_aremove_ne _ _ _ hroom]
      exact h3 r hr hend
  · intro room2 sid2 hp
    by_cases hroom : room2 = room
    · subst hroom
      rw [alookup_aremove_self] at hp
      simp at hp
    · rw [alookup_aremove_ne _ _ _ hroom] at hp
      exact h4 room2 sid2 hp

theorem sessInv_init : SessInv initState := by
  refine ⟨?_, ?_, ?_, ?_⟩ <;> simp [initState, alookup]

/-! ## Preservation of the session-row invariant by the operations -/

theorem sessInv_transition {st : MgrState} (h : SessInv st) (room : Nat)
    (ended : SessionRow) (conns : List Nat) (now : Nat) (ok1 ok2 : Bool)
    (hptr : alookup st.room_sessions room = some ended.session_id)
    (hget : dbGet st.db ended.session_id = some ended) :
    SessInv (exceptState (transition_to_emotion_topic st room ended conns now ok1 ok2)) := by
  unfold transition_to_emotion_topic
  rcases ok1 with _ | _
  · simpa [exceptState] using h
  · simp only [if_true]
    rcases conns with _ | ⟨ua, rest⟩
    · simp only [exceptState]
      exact sessInvC_close_only h hget now
    rcases rest with _ | ⟨ub, rest2⟩
    · simp only [exceptState]
      exact sessInvC_close_only h hget now
    rcases ok2 with _ | _
    · simp only [Bool.false_eq_true, if_false, if_neg, not_false_iff, exceptState]
      exact sessInvC_close_only h hget now
    · simp only [if_true, exceptState]
      simp only [SessInv, restartTimer_db, restartTimer_nextSessionId,
        restartTimer_room_sessions]
      exact sessInvC_trans h hptr hget ua ub now

theorem sessInv_transition_ok {st st1 : MgrState} {msgs : List Msg} {room : Nat}
    {ended : SessionRow} {conns : List Nat} {now : Nat} {ok1 ok2 : Bool}
    (heq : transition_to_emotion_topic st room ended conns now ok1 ok2 = .ok (st1, msgs))
    (h : SessInv st)
    (hptr : alookup st.room_sessions room = some ended.session_id)
    (hget : dbGet st.db ended.session_id = some ended) :
    SessInv st1 := by
  have hv := sessInv_transition h room ended conns now ok1 ok2 hptr hget
  rw [heq] at hv
  exact hv

theorem sessInv_transition_err {st stE : MgrState} {room : Nat}
    {ended : SessionRow} {conns : List Nat} {now : Nat} {ok1 ok2 : Bool}
    (heq : transition_to_emotion_topic st room ended conns now ok1 ok2 = .error stE)
    (h : SessInv st)
    (hptr : alookup st.room_sessions room = some ended.session_id)
    (hget : dbGet st.db ended.session_id = some ended) :
    SessInv stE := by
  have hv := sessInv_transition h room ended conns now ok1 ok2 hptr hget
  rw [heq] at hv
  exact hv

theorem sessInv_endchat {st : MgrState} (h : SessInv st) (room : Nat)
    (ended : SessionRow) (now : Nat) (ok : Bool)
    (hptr : alookup st.room_sessions room = some ended.session_id)
    (hget : dbGet st.db ended.session_id = some ended) :
    SessInv (exceptState (end_chat_after_emotion_extension st room ended now ok)) := by
  unfold end_chat_after_emotion_extension
  rcases ok with _ | _
  · simpa [exceptState] using h
  · simp only [if_true, exceptState]
    simp only [SessInv, clear_db, clear_nextSessionId, clear_room_sessions]
    exact sessInvC_close_clear h hptr hget now

theorem sessInv_endchat_ok {st st1 : MgrState} {msgs : List Msg} {room : Nat}
    {ended : SessionRow} {now : Nat} {ok : Bool}
    (heq : end_chat_after_emotion_extension st room ended now ok = .ok (st1, msgs))
    (h : SessInv st)
    (hptr : alookup st.room_sessions room = some ended.session_id)
    (hget : dbGet st.db ended.session_id = some ended) :
    SessInv st1 := by
  have hv := sessInv_endchat h room ended now ok hptr hget
  rw [heq] at hv
  exact hv

theorem sessInv_endchat_err {st stE : MgrState} {room : Nat}
    {ended : SessionRow} {now : Nat} {ok : Bool}
    (heq : end_chat_after_emotion_extension st room ended now ok = .error stE)
    (h : SessInv st)
    (hptr : alookup st.room_sessions room = some ended.session_id)
    (hget : dbGet st.db ended.session_id = some ended) :
    SessInv stE := by
  have hv := sessInv_endchat h room ended now ok hptr hget
  rw [heq] at hv
  exact hv

theorem sessInv_start {st : MgrState} (h : SessInv st) (room uA uB now : Nat)
    (ok : Bool) :
    SessInv (start_new_initial_session st room uA uB now ok).1 := by
  unfold start_new_initial_session
  rcases hx : alookup st.room_sessions room with _ | sid
  · rcases ok with _ | _
    · simpa using h
    · simp only [if_true]
      simp only [SessInv, restartTimer_db, restartTimer_nextSessionId,
        restartTimer_room_sessions]
      exact sessInvC_start h room uA uB now hx
  · simpa using h

theorem sessInv_vote {st : MgrState} (h : SessInv st) (room user : Nat)
    (response : Bool) (conns : List Nat) (now : Nat) (ok1 ok2 : Bool) :
    SessInv (add_session_response st room user response conns now ok1 ok2).1 := by
  unfold add_session_response
  dsimp only
  split
  · exact h
  · rename_i sid hsid
    split
    · exact h
    · split
      · exact h
      · split
        · split
          · exact h
          · rename_i row hrow
            split
            · rcases ok1 with _ | _
              · simpa using h
              · simp only [if_true]
                simp only [SessInv, restartTimer_db, restartTimer_nextSessionId,
                  restartTimer_room_sessions]
                exact sessInvC_extend h hsid hrow now
            · split
              · rename_i st1 msgs heq
                split at heq
                · have hv := sessInv_transition_ok heq h
                    (by rw [(dbGet_mem hrow).2]; exact hsid)
                    (by rw [(dbGet_mem hrow).2]; exact hrow)
                  exact hv
                · have hv := sessInv_endchat_ok heq h
                    (by rw [(dbGet_mem hrow).2]; exact hsid)
                    (by rw [(dbGet_mem hrow).2]; exact hrow)
                  exact hv
              · rename_i stE heq
                split at heq
                · have hv := sessInv_transition_err heq h
                    (by rw [(dbGet_mem hrow).2]; exact hsid)
                    (by rw [(dbGet_mem hrow).2]; exact hrow)
                  exact hv
                · have hv := sessInv_endchat_err heq h
                    (by rw [(dbGet_mem hrow).2]; exact hsid)
                    (by rw [(dbGet_mem hrow).2]; exact hrow)
                  exact hv
        · exact h

theorem sessInv_checkstep {st : MgrState} (h : SessInv st) (room targetSid : Nat)
    (conns : List Nat) (now : Nat) (ok1 ok2 : Bool) :
    SessInv (check_session_timeout_step st room targetSid conns now ok1 ok2).1 := by
  unfold check_session_timeout_step
  split
  · exact h
  · rename_i sid hsid
    split
    · split
      · exact h
      · rename_i row hrow
        split
        · split
          · split
            · rename_i st1 msgs heq
              split at heq
              · have hv := sessInv_transition_ok heq h
                  (by rw [(dbGet_mem hrow).2]; exact hsid)
                  (by rw [(dbGet_mem hrow).2]; exact hrow)
                exact hv
              · have hv := sessInv_endchat_ok heq h
                  (by rw [(dbGet_mem hrow).2]; exact hsid)
                  (by rw [(dbGet_mem hrow).2]; exact hrow)
                exact hv
            · rename_i stE heq
              split at heq
              · have hv := sessInv_transition_err heq h
                  (by rw [(dbGet_mem hrow).2]; exact hsid)
                  (by rw [(dbGet_mem hrow).2]; exact hrow)
                exact hv
              · have hv := sessInv_endchat_err heq h
                  (by rw [(dbGet_mem hrow).2]; exact hsid)
                  (by rw [(dbGet_mem hrow).2]; exact hrow)
                exact hv
          · exact h
        · exact h
    · exact h

theorem sessInv_fire {st : MgrState} (h : SessInv st) (tid : Nat)
    (conns : List Nat) (now : Nat) (ok1 ok2 : Bool) :
    SessInv (timer_fire st tid conns now ok1 ok2).1 := by
  unfold timer_fire
  split
  · exact h
  · split
    · dsimp only
      split
      · exact sessInv_checkstep h _ _ conns now ok1 ok2
      · exact sessInv_checkstep h _ _ conns now ok1 ok2
    · exact h

theorem sessInv_end_session {st : MgrState} (h : SessInv st) (room now : Nat) :
    SessInv (end_session_for_room st room now true) := by
  unfold end_session_for_room
  dsimp only
  split
  · rename_i hsid
    simp only [SessInv, clear_db, clear_nextSessionId, clear_room_sessions]
    apply sessInvC_aremove h
    intro r hr hroom hend
    have hp := h.2.2.1 r hr hend
    rw [hroom, hsid] at hp
    simp at hp
  · rename_i sid hsid
    split
    · rename_i hnone
      rcases h.2.2.2 room sid hsid with ⟨r0, hget0, _⟩
      rw [hnone] at hget0
      simp at hget0
    · rename_i row hrow
      split
      · rename_i hopen
        simp only [if_true]
        simp only [SessInv, clear_db, clear_nextSessionId, clear_room_sessions]
        have hp2 : alookup st.room_sessions room = some row.session_id := by
          rw [(dbGet_mem hrow).2]
          exact hsid
        have hg2 : dbGet st.db row.session_id = some row := by
          rw [(dbGet_mem hrow).2]
          exact hrow
        exact sessInvC_close_clear h hp2 hg2 now
      · rename_i hclosed
        simp only [SessInv, clear_db, clear_nextSessionId, clear_room_sessions]
        apply sessInvC_aremove h
        intro r hr hroom hend
        have hp := h.2.2.1 r hr hend
        rw [hroom, hsid] at hp
        injection hp with hp
        have hreq : r = row := by
          apply row_eq_of_id_eq h.2.1 hr (dbGet_mem hrow).1
          rw [← hp]
          exact (dbGet_mem hrow).2.symm
        rw [hreq] at hend
        exact hclosed hend

theorem sessInv_apply {st : MgrState} (h : SessInv st) (e : Event)
    (hok : e.allOk = true) : SessInv (applyEvent st e).1 := by
  rcases e with ⟨room, uA, uB, now, ok⟩ | ⟨room, user, choice, conns, now, ok1, ok2⟩ |
    ⟨tid, conns, now, ok1, ok2⟩ | ⟨room, now, ok⟩
  · exact sessInv_start h room uA uB now ok
  · exact sessInv_vote h room user choice conns now ok1 ok2
  · exact sessInv_fire h tid conns now ok1 ok2
  · simp only [Event.allOk] at hok
    subst hok
    exact sessInv_end_session h room now

theorem sessInv_run (es : List Event) (hok : es.all Event.allOk = true) :
    SessInv (runEvents initState es) := by
  suffices hgen : ∀ (st : MgrState), SessInv st → SessInv (runEvents st es) from
    hgen initState sessInv_init
  induction es with
  | nil => intro st h; exact h
  | cons e rest ih =>
    simp only [List.all_cons, Bool.and_eq_true] at hok
    intro st h
    exact ih hok.2 (applyEvent st e).1 (sessInv_apply h e hok.1)

theorem active_rows_le_one {st : MgrState} (h : SessInv st) (room : Nat) :
    (st.db.filter (fun r => decide (r.room_id = room) && r.end_time.isNone)).length ≤ 1 := by
  obtain ⟨h1, h2, h3, h4⟩ := h
  rcases hreg : alookup st.room_sessions room with _ | sid
  · have hnil : st.db.filter (fun r => decide (r.room_id = room) && r.end_time.isNone) = [] := by
      apply List.filter_eq_nil_iff.mpr
      intro r hr hp
      simp only [Bool.and_eq_true, decide_eq_true_eq, Option.isNone_iff_eq_none] at hp
      have hx := h3 r hr hp.2
      rw [hp.1, hreg] at hx
      simp at hx
    simp [hnil]
  · apply filter_length_le_one SessionRow.session_id _ sid st.db h2
    intro x hx hp
    simp only [Bool.and_eq_true, decide_eq_true_eq, Option.isNone_iff_eq_none] at hp
    have hx2 := h3 x hx hp.2
    rw [hp.1, hreg] at hx2
    injection hx2 with hh
    exact hh.symm

theorem taskGet_cancelTask_self (ts : List TimerTask) (tid : Nat) :
    ∀ t, taskGet (cancelTask ts tid) tid = some t → t.live = false := by
  induction ts with
  | nil =>
    intro t ht
    simp [cancelTask, taskGet] at ht
  | cons t0 rest ih =>
    intro t ht
    by_cases h0 : t0.tid = tid
    · simp only [cancelTask, List.map_cons, if_pos h0, taskGet] at ht
      injection ht with ht
      rw [← ht]
    · simp only [cancelTask, List.map_cons, if_neg h0, taskGet] at ht
      exact ih t ht

theorem clear_cancels_registered {st : MgrState} {room tid : Nat}
    (hreg : alookup st.session_tasks room = some tid) :
    ∀ t, taskGet (clear_room_session_data st room).tasks tid = some t →
      t.live = false := by
  rw [clear_eq_some hreg]
  exact taskGet_cancelTask_self st.tasks tid

/-! ## Claim theorems -/

/-- C5: exactly one live timer per room while a session is active — along
every event trace of the session manager (session starts, votes, timer
fires, room-empty cleanups, with arbitrary commit outcomes), a room never
has two live timeout-checker tasks: every operation that arms a new checker
first cancels the registered one. -/
theorem claim_C5_one_live_timer_per_room (es : List Event) (room : Nat) :
    ((runEvents initState es).tasks.filter
      (fun t => decide (t.room_id = room) && t.live)).length ≤ 1 :=
  live_timers_le_one (timerInv_run es) room

/-- C2: at most one active Session per room — along every event trace in
which the persistence collaborator succeeds (as the spec assumes), the
sessions table never holds two rows of the same room with no `end_time`:
a start with an existing session returns it without creating a row, and a
topic transition closes the old row before installing the new one. -/
theorem claim_C2_at_most_one_active_session (es : List Event)
    (hok : es.all Event.allOk = true) (room : Nat) :
    ((runEvents initState es).db.filter
      (fun r => decide (r.room_id = room) && r.end_time.isNone)).length ≤ 1 :=
  active_rows_le_one (sessInv_run es hok) room

theorem claim_C2_witness :
    ([Event.startSession 1 10 11 0 true,
      Event.timerFire 0 [10, 11] 1 true true,
      Event.vote 1 10 false [10, 11] 1 true true,
      Event.vote 1 11 false [10, 11] 1 true true].all Event.allOk = true) ∧
    ((runEvents initState
        [Event.startSession 1 10 11 0 true,
         Event.timerFire 0 [10, 11] 1 true true,
         Event.vote 1 10 false [10, 11] 1 true true,
         Event.vote 1 11 false [10, 11] 1 true true]).db.filter
      (fun r => decide (r.room_id = 1) && r.end_time.isNone)).length ≤ 1 :=
  ⟨by decide,
   claim_C2_at_most_one_active_session
     [Event.startSession 1 10 11 0 true,
      Event.timerFire 0 [10, 11] 1 true true,
      Event.vote 1 10 false [10, 11] 1 true true,
      Event.vote 1 11 false [10, 11] 1 true true] (by decide) 1⟩

/-- C4: stale-timer safety — one iteration of the timeout-checker loop whose
target session id no longer matches the room's current session (absent or
replaced) changes no state, emits no message, and ends the task without
taking any transition (session.py lines 100-103). -/
theorem claim_C4_stale_timer_noop (st : MgrState) (room targetSid : Nat)
    (conns : List Nat) (now : Nat) (ok1 ok2 : Bool)
    (hstale : alookup st.room_sessions room ≠ some targetSid) :
    check_session_timeout_step st room targetSid conns now ok1 ok2 =
      (st, [], false) := by
  unfold check_session_timeout_step
  rcases hx : alookup st.room_sessions room with _ | sid
  · rfl
  · have hne : ¬sid = targetSid := by
      intro hcon
      rw [hx, hcon] at hstale
      exact hstale rfl
    simp [hne]

theorem claim_C4_witness :
    (alookup (runEvents initState
        [Event.startSession 1 10 11 0 true]).room_sessions 1 ≠ some 5) ∧
    check_session_timeout_step
        (runEvents initState [Event.startSession 1 10 11 0 true]) 1 5
        [10, 11] 9 true true =
      (runEvents initState [Event.startSession 1 10 11 0 true], [], false) :=
  ⟨by decide,
   claim_C4_stale_timer_noop
     (runEvents initState [Event.startSession 1 10 11 0 true]) 1 5
     [10, 11] 9 true true (by decide)⟩

/-- C10: idempotent session start — when a room already has an in-memory
current session, `start_new_initial_session` returns that session object
and leaves the whole state unchanged: no row is created, no timer task is
started or cancelled, and no message is broadcast (session.py lines 33-35). -/
theorem claim_C10_idempotent_start (st : MgrState) (room uA uB now : Nat)
    (ok : Bool) (sid : Nat) (hex : alookup st.room_sessions room = some sid) :
    start_new_initial_session st room uA uB now ok = (st, dbGet st.db sid, []) := by
  unfold start_new_initial_session
  rw [hex]

theorem claim_C10_witness :
    (alookup (runEvents initState
        [Event.startSession 1 10 11 0 true]).room_sessions 1 = some 0) ∧
    start_new_initial_session
        (runEvents initState [Event.startSession 1 10 11 0 true]) 1 10 11 7 true =
      (runEvents initState [Event.startSession 1 10 11 0 true],
       dbGet (runEvents initState [Event.startSession 1 10 11 0 true]).db 0,
       []) :=
  ⟨by decide,
   claim_C10_idempotent_start
     (runEvents initState [Event.startSession 1 10 11 0 true]) 1 10 11 7 true 0
     (by decide)⟩

/-- C7: room-empty force close — `end_session_for_room` (invoked by the
websocket handler when the last participant disconnects) closes the current
session row, setting `end_time := now` only when it was not already set,
and clears every piece of in-memory state of the room: the current-session
pointer, the registered timer task (which is cancelled), and the pending
vote responses — whatever vote round or timer was in flight. -/
theorem claim_C7_room_empty_force_close (st : MgrState) (room now sid : Nat)
    (row : SessionRow)
    (hptr : alookup st.room_sessions room = some sid)
    (hget : dbGet st.db sid = some row) :
    alookup (end_session_for_room st room now true).room_sessions room = none ∧
    alookup (end_session_for_room st room now true).session_tasks room = none ∧
    alookup (end_session_for_room st room now true).session_responses room = none ∧
    dbGet (end_session_for_room st room now true).db sid =
      some (if row.end_time = none then { row with end_time := some now } else row) ∧
    (∀ tid, alookup st.session_tasks room = some tid →
      ∀ t, taskGet (end_session_for_room st room now true).tasks tid = some t →
        t.live = false) := by
  have hsid : row.session_id = sid := (dbGet_mem hget).2
  unfold end_session_for_room
  dsimp only
  simp only [hptr, hget]
  by_cases hend : row.end_time = none
  · rw [if_pos hend]
    simp only [if_true]
    refine ⟨?_, ?_, ?_, ?_, ?_⟩
    · rw [clear_room_sessions]
      exact alookup_aremove_self _ _
    · exact clear_session_tasks_lookup _ room
    · rw [clear_session_responses]
      exact alookup_aremove_self _ _
    · rw [clear_db]
      rw [if_pos hend]
      have hdg : dbGet (dbSet st.db { row with end_time := some now }) sid =
          some { row with end_time := some now } := by
        rw [← hsid]
        exact dbGet_dbSet_self st.db _
      exact hdg
    · intro tid hreg t ht
      have hreg2 : alookup ({ st with
          db := dbSet st.db { row with end_time := some now } } : MgrState).session_tasks
          room = some tid := hreg
      exact clear_cancels_registered hreg2 t ht
  · rw [if_neg hend]
    refine ⟨?_, ?_, ?_, ?_, ?_⟩
    · rw [clear_room_sessions]
      exact alookup_aremove_self _ _
    · exact clear_session_tasks_lookup _ room
    · rw [clear_session_responses]
      exact alookup_aremove_self _ _
    · rw [clear_db, if_neg hend]
      exact hget
    · intro tid hreg t ht
      exact clear_cancels_registered hreg t ht

theorem claim_C7_witness :
    (alookup (runEvents initState
        [Event.startSession 1 10 11 0 true,
         Event.timerFire 0 [10, 11] 1 true true,
         Event.vote 1 10 true [10, 11] 1 true true]).room_sessions 1 = some 0) ∧
    (dbGet (runEvents initState
        [Event.startSession 1 10 11 0 true,
         Event.timerFire 0 [10, 11] 1 true true,
         Event.vote 1 10 true [10, 11] 1 true true]).db 0 =
      some ⟨0, 1, 10, 11, Topic.situation, 0, none, false⟩) ∧
    (alookup (end_session_for_room (runEvents initState
        [Event.startSession 1 10 11 0 true,
         Event.timerFire 0 [10, 11] 1 true true,
         Event.vote 1 10 true [10, 11] 1 true true]) 1 4 true).room_sessions 1 = none) := by
  have hc := claim_C7_room_empty_force_close (runEvents initState
      [Event.startSession 1 10 11 0 true,
       Event.timerFire 0 [10, 11] 1 true true,
       Event.vote 1 10 true [10, 11] 1 true true]) 1 4 0
      ⟨0, 1, 10, 11, Topic.situation, 0, none, false⟩ (by decide) (by decide)
  exact ⟨by decide, by decide, hc.1⟩

theorem restartTimer_tasks (st : MgrState) (room sid : Nat) :
    (restartTimer st room sid).tasks =
      (cancelRoomTask st room).tasks ++
        [⟨st.nextTaskId, room, sid, sessionDuration, true⟩] := by
  simp only [restartTimer, spawnTimerTask, cancelRoomTask_next]

theorem restartTimer_session_tasks (st : MgrState) (room sid : Nat) :
    (restartTimer st room sid).session_tasks =
      aset st.session_tasks room st.nextTaskId := by
  simp only [restartTimer, spawnTimerTask, cancelRoomTask_next,
    cancelRoomTask_session_tasks]

/-- C1: vote resolution — once both distinct participants of a room's
pending extension round have submitted, the outcome is decided by
`any_yes = c1 || c2`:
* any yes → the current session row gets `extension_used := true` and
  `start_time := now`, a fresh timer of the same duration is armed for the
  same session id, the round is cleared, and one "extended" message is
  broadcast (all-yes and one-yes differ only in the message text);
* both no, topic Situation → the current row is closed (`end_time := now`),
  a new active row with topic Emotion is created and installed as the
  room's current session, a fresh timer is armed for it, and a transition
  message is broadcast;
* both no, topic Emotion → the current row is closed and all in-memory
  state of the room (current session, timer entry, responses) is cleared,
  with a closing message broadcast. -/
theorem claim_C1_vote_resolution (st : MgrState) (room u1 u2 sid : Nat)
    (c1 c2 : Bool) (row : SessionRow) (ua ub : Nat) (rest : List Nat) (now : Nat)
    (hresp : alookup st.session_responses room = some [(u1, c1)])
    (hne : ¬u1 = u2)
    (hptr : alookup st.room_sessions room = some sid)
    (hget : dbGet st.db sid = some row)
    (hfresh : ∀ r ∈ st.db, r.session_id ≠ st.nextSessionId) :
    ((c1 || c2) = true →
      alookup (add_session_response st room u2 c2 (ua :: ub :: rest) now true true).1.room_sessions room = some sid ∧
      dbGet (add_session_response st room u2 c2 (ua :: ub :: rest) now true true).1.db sid =
        some { row with extension_used := true, start_time := now } ∧
      alookup (add_session_response st room u2 c2 (ua :: ub :: rest) now true true).1.session_tasks room = some st.nextTaskId ∧
      (add_session_response st room u2 c2 (ua :: ub :: rest) now true true).1.tasks.getLast? =
        some ⟨st.nextTaskId, room, sid, sessionDuration, true⟩ ∧
      alookup (add_session_response st room u2 c2 (ua :: ub :: rest) now true true).1.session_responses room = none ∧
      (add_session_response st room u2 c2 (ua :: ub :: rest) now true true).2 =
        [⟨if (c1 && c2) = true then .sessionExtendedAll else .sessionExtendedOne, some sid, none⟩]) ∧
    ((c1 || c2) = false → row.topic = .situation →
      dbGet (add_session_response st room u2 c2 (ua :: ub :: rest) now true true).1.db sid =
        some { row with end_time := some now } ∧
      alookup (add_session_response st room u2 c2 (ua :: ub :: rest) now true true).1.room_sessions room = some st.nextSessionId ∧
      sid ≠ st.nextSessionId ∧
      dbGet (add_session_response st room u2 c2 (ua :: ub :: rest) now true true).1.db st.nextSessionId =
        some ⟨st.nextSessionId, room, ua, ub, .emotion, now, none, false⟩ ∧
      alookup (add_session_response st room u2 c2 (ua :: ub :: rest) now true true).1.session_tasks room = some st.nextTaskId ∧
      (add_session_response st room u2 c2 (ua :: ub :: rest) now true true).1.tasks.getLast? =
        some ⟨st.nextTaskId, room, st.nextSessionId, sessionDuration, true⟩ ∧
      alookup (add_session_response st room u2 c2 (ua :: ub :: rest) now true true).1.session_responses room = none ∧
      (add_session_response st room u2 c2 (ua :: ub :: rest) now true true).2 =
        [⟨.emotionTransition, some st.nextSessionId, none⟩]) ∧
    ((c1 || c2) = false → row.topic = .emotion →
      dbGet (add_session_response st room u2 c2 (ua :: ub :: rest) now true true).1.db sid =
        some { row with end_time := some now } ∧
      alookup (add_session_response st room u2 c2 (ua :: ub :: rest) now true true).1.room_sessions room = none ∧
      alookup (add_session_response st room u2 c2 (ua :: ub :: rest) now true true).1.session_tasks room = none ∧
      alookup (add_session_response st room u2 c2 (ua :: ub :: rest) now true true).1.session_responses room = none ∧
      (add_session_response st room u2 c2 (ua :: ub :: rest) now true true).2 =
        [⟨.finalEnd, none, none⟩]) := by
  have hsid : row.session_id = sid := (dbGet_mem hget).2
  have hlen : ¬((ua :: ub :: rest).length < 2) := by
    simp only [List.length_cons]
    omega
  have hlen2 : ¬(rest.length + 1 + 1 < 2) := by omega
  have hlen3 : ¬(0 + 1 + 1 = 1) := by omega
  refine ⟨?_, ?_, ?_⟩
  · intro hc
    unfold add_session_response
    dsimp only
    simp only [hresp, aset, if_neg hne, hptr, hget, if_neg hlen,
      List.length_cons, List.length_nil, List.all_cons, List.all_nil,
      List.any_cons, List.any_nil, Bool.or_false, Bool.and_true, hc,
      Bool.or_true, if_true, if_neg hlen2, if_neg hlen3]
    refine ⟨?_, ?_, ?_, ?_, ?_, ?_⟩
    · rw [restartTimer_room_sessions]
      dsimp only
      rw [alookup_aset_self, hsid]
    · rw [restartTimer_db]
      dsimp only
      rw [← hsid]
      exact dbGet_dbSet_self st.db _
    · rw [restartTimer_session_tasks]
      dsimp only
      exact alookup_aset_self _ _ _
    · dsimp only
      rw [restartTimer_tasks]
      dsimp only
      rw [hsid]
      exact List.getLast?_concat _
    · dsimp only
      rw [restartTimer_session_responses]
      exact alookup_aremove_self _ _
    · dsimp only
      rw [hsid]
  · intro hc htopic
    rcases Bool.or_eq_false_iff.mp hc with ⟨hc1, hc2⟩
    subst hc1
    subst hc2
    unfold add_session_response
    dsimp only
    simp only [hresp, aset, if_neg hne, hptr, hget, if_neg hlen2, if_neg hlen3,
      List.length_cons, List.length_nil, List.all_cons, List.all_nil,
      List.any_cons, List.any_nil, Bool.or_false, Bool.and_false, Bool.false_and,
      Bool.or_self, Bool.false_eq_true, if_false]
    rw [if_pos htopic]
    simp only [transition_to_emotion_topic, eq_self_iff_true, if_true]
    have hleft : dbGet (dbSet st.db { row with end_time := some now }) sid =
        some { row with end_time := some now } := by
      rw [← hsid]
      exact dbGet_dbSet_self st.db _
    refine ⟨?_, ?_, ?_, ?_, ?_, ?_, ?_, ?_⟩
    · rw [restartTimer_db]
      dsimp only
      exact dbGet_append_left hleft
    · rw [restartTimer_room_sessions]
      dsimp only
      exact alookup_aset_self _ _ _
    · have hf := hfresh row (dbGet_mem hget).1
      rw [hsid] at hf
      exact hf
    · rw [restartTimer_db]
      dsimp only
      have hnone : dbGet (dbSet st.db { row with end_time := some now })
          st.nextSessionId = none := by
        apply dbGet_eq_none
        intro r hr
        rcases mem_dbSet hr with h | h
        · subst h
          exact hfresh row (dbGet_mem hget).1
        · exact hfresh r h
      rw [dbGet_append_right hnone]
      simp [dbGet]
    · rw [restartTimer_session_tasks]
      dsimp only
      exact alookup_aset_self _ _ _
    · rw [restartTimer_tasks]
      dsimp only
      exact List.getLast?_concat _
    · rw [restartTimer_session_responses]
      dsimp only
      exact alookup_aremove_self _ _
    · trivial
  · intro hc htopic
    have hts : ¬(row.topic = Topic.situation) := by
      rw [htopic]
      intro hcon
      exact Topic.noConfusion hcon
    rcases Bool.or_eq_false_iff.mp hc with ⟨hc1, hc2⟩
    subst hc1
    subst hc2
    unfold add_session_response
    dsimp only
    simp only [hresp, aset, if_neg hne, hptr, hget, if_neg hlen2, if_neg hlen3,
      List.length_cons, List.length_nil, List.all_cons, List.all_nil,
      List.any_cons, List.any_nil, Bool.or_false, Bool.and_false, Bool.false_and,
      Bool.or_self, Bool.false_eq_true, if_false]
    rw [if_neg hts]
    simp only [end_chat_after_emotion_extension, eq_self_iff_true, if_true]
    refine ⟨?_, ?_, ?_, ?_, ?_⟩
    · rw [clear_db]
      dsimp only
      rw [← hsid]
      exact dbGet_dbSet_self st.db _
    · rw [clear_room_sessions]
      dsimp only
      exact alookup_aremove_self _ _
    · exact clear_session_tasks_lookup _ room
    · rw [clear_session_responses]
      dsimp only
      exact alookup_aremove_self _ _
    · trivial

theorem claim_C1_witness :
    (alookup (runEvents initState
        [Event.startSession 1 10 11 0 true,
         Event.timerFire 0 [10, 11] 1 true true,
         Event.vote 1 10 true [10, 11] 1 true true]).session_responses 1 =
      some [(10, true)]) ∧
    (add_session_response (runEvents initState
        [Event.startSession 1 10 11 0 true,
         Event.timerFire 0 [10, 11] 1 true true,
         Event.vote 1 10 true [10, 11] 1 true true]) 1 11 false (10 :: 11 :: []) 2 true true).2 =
      [⟨if (true && false) = true then .sessionExtendedAll else .sessionExtendedOne,
        some 0, none⟩] :=
  ⟨by decide,
   ((claim_C1_vote_resolution (runEvents initState
        [Event.startSession 1 10 11 0 true,
         Event.timerFire 0 [10, 11] 1 true true,
         Event.vote 1 10 true [10, 11] 1 true true]) 1 10 11 0 true false
      ⟨0, 1, 10, 11, .situation, 0, none, false⟩ 10 11 [] 2
      (by decide) (by decide) (by decide) (by decide) (by decide)).1
      (by decide)).2.2.2.2.2⟩

/-- C6 as written is false on the code: after a round resolves there is no
AlreadyResolved status and a further submission is *not* a no-op.  Concrete
run: the round of room 1 resolves by extension; a later vote by user 10 both
mutates the state (a fresh response map is recorded) and emits a targeted
waiting message. -/
theorem claim_C6_counterexample :
    (alookup (runEvents initState
        [Event.startSession 1 10 11 0 true,
         Event.timerFire 0 [10, 11] 1 true true,
         Event.vote 1 10 true [10, 11] 1 true true,
         Event.vote 1 11 false [10, 11] 1 true true]).session_responses 1 = none) ∧
    ¬((add_session_response (runEvents initState
        [Event.startSession 1 10 11 0 true,
         Event.timerFire 0 [10, 11] 1 true true,
         Event.vote 1 10 true [10, 11] 1 true true,
         Event.vote 1 11 false [10, 11] 1 true true]) 1 10 true [10, 11] 2 true true).1 =
          runEvents initState
            [Event.startSession 1 10 11 0 true,
             Event.timerFire 0 [10, 11] 1 true true,
             Event.vote 1 10 true [10, 11] 1 true true,
             Event.vote 1 11 false [10, 11] 1 true true] ∧
      (add_session_response (runEvents initState
        [Event.startSession 1 10 11 0 true,
         Event.timerFire 0 [10, 11] 1 true true,
         Event.vote 1 10 true [10, 11] 1 true true,
         Event.vote 1 11 false [10, 11] 1 true true]) 1 10 true [10, 11] 2 true true).2 = []) := by
  decide

/-- C6 amended: after a round resolves, the room's response map is cleared;
the code has no AlreadyResolved status, and a further vote submission while
a session is active and both users are connected is treated as the first
vote of a fresh round — it is recorded, a waiting message targeted at the
voter is emitted, and nothing else changes (no transition, no extension). -/
theorem claim_C6_amended (st : MgrState) (room user : Nat) (c : Bool)
    (ua ub : Nat) (rest : List Nat) (now : Nat) (ok1 ok2 : Bool) (sid : Nat)
    (hresp : alookup st.session_responses room = none)
    (hptr : alookup st.room_sessions room = some sid) :
    add_session_response st room user c (ua :: ub :: rest) now ok1 ok2 =
      ({ st with session_responses := aset st.session_responses room [(user, c)] },
       [⟨.waitingOther, none, some user⟩]) := by
  have hlen2 : ¬(rest.length + 1 + 1 < 2) := by omega
  unfold add_session_response
  dsimp only
  simp only [hresp, aset, hptr, if_neg hlen2, List.length_cons, List.length_nil,
    if_true]

theorem claim_C6_amended_witness :
    (alookup (runEvents initState
        [Event.startSession 1 10 11 0 true,
         Event.timerFire 0 [10, 11] 1 true true,
         Event.vote 1 10 true [10, 11] 1 true true,
         Event.vote 1 11 false [10, 11] 1 true true]).session_responses 1 = none) ∧
    (alookup (runEvents initState
        [Event.startSession 1 10 11 0 true,
         Event.timerFire 0 [10, 11] 1 true true,
         Event.vote 1 10 true [10, 11] 1 true true,
         Event.vote 1 11 false [10, 11] 1 true true]).room_sessions 1 = some 0) ∧
    add_session_response (runEvents initState
        [Event.startSession 1 10 11 0 true,
         Event.timerFire 0 [10, 11] 1 true true,
         Event.vote 1 10 true [10, 11] 1 true true,
         Event.vote 1 11 false [10, 11] 1 true true]) 1 10 true (10 :: 11 :: []) 2 true true =
      ({ runEvents initState
          [Event.startSession 1 10 11 0 true,
           Event.timerFire 0 [10, 11] 1 true true,
           Event.vote 1 10 true [10, 11] 1 true true,
           Event.vote 1 11 false [10, 11] 1 true true] with
         session_responses := aset (runEvents initState
          [Event.startSession 1 10 11 0 true,
           Event.timerFire 0 [10, 11] 1 true true,
           Event.vote 1 10 true [10, 11] 1 true true,
           Event.vote 1 11 false [10, 11] 1 true true]).session_responses 1 [(10, true)] },
       [⟨.waitingOther, none, some 10⟩]) :=
  ⟨by decide, by decide,
   claim_C6_amended (runEvents initState
      [Event.startSession 1 10 11 0 true,
       Event.timerFire 0 [10, 11] 1 true true,
       Event.vote 1 10 true [10, 11] 1 true true,
       Event.vote 1 11 false [10, 11] 1 true true]) 1 10 true 10 11 [] 2 true true 0
     (by decide) (by decide)⟩

/-- C9: persist-then-commit — for every session transition, the in-memory
current-session state advances only after the corresponding `db.commit()`
succeeds:
1. initial start with a failed commit returns `None` and changes nothing;
2. extension with a failed commit leaves the table, the current-session
   pointer and all timer state unchanged and broadcasts nothing (only the
   recorded votes remain, since the raise skips their deletion);
3. topic advance whose first commit fails likewise changes nothing beyond
   the recorded votes;
4. topic advance whose close commit succeeded but whose insert commit fails
   leaves the in-memory pointer and timers on the old session (memory never
   runs ahead of the durable state) with no broadcast;
5. final end with a failed commit changes nothing beyond the recorded
   votes. -/
theorem claim_C9_persist_then_commit :
    (∀ (st : MgrState) (room uA uB now : Nat),
      alookup st.room_sessions room = none →
      start_new_initial_session st room uA uB now false = (st, none, [])) ∧
    (∀ (st : MgrState) (room u1 u2 sid : Nat) (c1 c2 : Bool) (row : SessionRow)
       (ua ub : Nat) (rest : List Nat) (now : Nat) (ok2 : Bool),
      alookup st.session_responses room = some [(u1, c1)] →
      ¬u1 = u2 →
      alookup st.room_sessions room = some sid →
      dbGet st.db sid = some row →
      (c1 || c2) = true →
      add_session_response st room u2 c2 (ua :: ub :: rest) now false ok2 =
        ({ st with
            session_responses := aset st.session_responses room [(u1, c1), (u2, c2)] },
         [])) ∧
    (∀ (st : MgrState) (room u1 u2 sid : Nat) (c1 c2 : Bool) (row : SessionRow)
       (ua ub : Nat) (rest : List Nat) (now : Nat) (ok2 : Bool),
      alookup st.session_responses room = some [(u1, c1)] →
      ¬u1 = u2 →
      alookup st.room_sessions room = some sid →
      dbGet st.db sid = some row →
      (c1 || c2) = false →
      row.topic = .situation →
      add_session_response st room u2 c2 (ua :: ub :: rest) now false ok2 =
        ({ st with
            session_responses := aset st.session_responses room [(u1, c1), (u2, c2)] },
         [])) ∧
    (∀ (st : MgrState) (room u1 u2 sid : Nat) (c1 c2 : Bool) (row : SessionRow)
       (ua ub : Nat) (rest : List Nat) (now : Nat),
      alookup st.session_responses room = some [(u1, c1)] →
      ¬u1 = u2 →
      alookup st.room_sessions room = some sid →
      dbGet st.db sid = some row →
      (c1 || c2) = false →
      row.topic = .situation →
      add_session_response st room u2 c2 (ua :: ub :: rest) now true false =
        ({ st with
            db := dbSet st.db { row with end_time := some now },
            session_responses := aset st.session_responses room [(u1, c1), (u2, c2)] },
         [])) ∧
    (∀ (st : MgrState) (room u1 u2 sid : Nat) (c1 c2 : Bool) (row : SessionRow)
       (ua ub : Nat) (rest : List Nat) (now : Nat) (ok2 : Bool),
      alookup st.session_responses room = some [(u1, c1)] →
      ¬u1 = u2 →
      alookup st.room_sessions room = some sid →
      dbGet st.db sid = some row →
      (c1 || c2) = false →
      row.topic = .emotion →
      add_session_response st room u2 c2 (ua :: ub :: rest) now false ok2 =
        ({ st with
            session_responses := aset st.session_responses room [(u1, c1), (u2, c2)] },
         [])) := by
  refine ⟨?_, ?_, ?_, ?_, ?_⟩
  · intro st room uA uB now hx
    unfold start_new_initial_session
    rw [hx]
    simp
  · intro st room u1 u2 sid c1 c2 row ua ub rest now ok2 hresp hne hptr hget hc
    have hlen2 : ¬(rest.length + 1 + 1 < 2) := by omega
    have hlen3 : ¬(0 + 1 + 1 = 1) := by omega
    unfold add_session_response
    dsimp only
    simp only [hresp, aset, if_neg hne, hptr, hget, if_neg hlen2, if_neg hlen3,
      List.length_cons, List.length_nil, List.all_cons, List.all_nil,
      List.any_cons, List.any_nil, Bool.or_false, Bool.and_true, hc,
      Bool.or_true, if_true, Bool.false_eq_true, if_false]
  · intro st room u1 u2 sid c1 c2 row ua ub rest now ok2 hresp hne hptr hget hc htopic
    rcases Bool.or_eq_false_iff.mp hc with ⟨hc1, hc2⟩
    subst hc1
    subst hc2
    have hlen2 : ¬(rest.length + 1 + 1 < 2) := by omega
    have hlen3 : ¬(0 + 1 + 1 = 1) := by omega
    unfold add_session_response
    dsimp only
    simp only [hresp, aset, if_neg hne, hptr, hget, if_neg hlen2, if_neg hlen3,
      List.length_cons, List.length_nil, List.all_cons, List.all_nil,
      List.any_cons, List.any_nil, Bool.or_false, Bool.and_false, Bool.false_and,
      Bool.or_self, Bool.false_eq_true, if_false]
    rw [if_pos htopic]
    simp only [transition_to_emotion_topic, Bool.false_eq_true, if_false, if_true]
  · intro st room u1 u2 sid c1 c2 row ua ub rest now hresp hne hptr hget hc htopic
    rcases Bool.or_eq_false_iff.mp hc with ⟨hc1, hc2⟩
    subst hc1
    subst hc2
    have hlen2 : ¬(rest.length + 1 + 1 < 2) := by omega
    have hlen3 : ¬(0 + 1 + 1 = 1) := by omega
    unfold add_session_response
    dsimp only
    simp only [hresp, aset, if_neg hne, hptr, hget, if_neg hlen2, if_neg hlen3,
      List.length_cons, List.length_nil, List.all_cons, List.all_nil,
      List.any_cons, List.any_nil, Bool.or_false, Bool.and_false, Bool.false_and,
      Bool.or_self, Bool.false_eq_true, if_false]
    rw [if_pos htopic]
    simp only [transition_to_emotion_topic, eq_self_iff_true, if_true,
      Bool.false_eq_true, if_false]
  · intro st room u1 u2 sid c1 c2 row ua ub rest now ok2 hresp hne hptr hget hc htopic
    have hts : ¬(row.topic = Topic.situation) := by
      rw [htopic]
      intro hcon
      exact Topic.noConfusion hcon
    rcases Bool.or_eq_false_iff.mp hc with ⟨hc1, hc2⟩
    subst hc1
    subst hc2
    have hlen2 : ¬(rest.length + 1 + 1 < 2) := by omega
    have hlen3 : ¬(0 + 1 + 1 = 1) := by omega
    unfold add_session_response
    dsimp only
    simp only [hresp, aset, if_neg hne, hptr, hget, if_neg hlen2, if_neg hlen3,
      List.length_cons, List.length_nil, List.all_cons, List.all_nil,
      List.any_cons, List.any_nil, Bool.or_false, Bool.and_false, Bool.false_and,
      Bool.or_self, Bool.false_eq_true, if_false]
    rw [if_neg hts]
    simp only [end_chat_after_emotion_extension, Bool.false_eq_true, if_false, if_true]

theorem claim_C9_witness :
    (alookup initState.room_sessions 1 = none) ∧
    start_new_initial_session initState 1 10 11 0 false = (initState, none, []) :=
  ⟨by decide, claim_C9_persist_then_commit.1 initState 1 10 11 0 (by decide)⟩

/-! ## Dispatcher invariant and the FIFO / bounded-queue claims -/

theorem filter_eq_single {l : List Nat} (hnd : l.Nodup) (u : Nat) :
    l.filter (fun v => decide (v = u)) = [] ∨
    l.filter (fun v => decide (v = u)) = [u] := by
  induction l with
  | nil => exact Or.inl rfl
  | cons a rest ih =>
    simp only [List.nodup_cons] at hnd
    by_cases ha : a = u
    · subst ha
      have hz : rest.filter (fun v => decide (v = a)) = [] := by
        apply List.filter_eq_nil_iff.mpr
        intro v hv hpv
        simp only [decide_eq_true_eq] at hpv
        exact hnd.1 (hpv ▸ hv)
      right
      simp [List.filter_cons, hz]
    · rcases ih hnd.2 with h | h <;> simp [List.filter_cons, ha, h]

theorem targetsOf_nodup {conns : List Nat} (hnd : conns.Nodup) (it : QItem) :
    (targetsOf conns it).Nodup := by
  rcases ht : it.target with _ | u
  · simp [targetsOf, ht, hnd]
  · by_cases h : u ∈ conns <;> simp [targetsOf, ht, h]

theorem observed_append_pairs (targets : List Nat) (it : QItem) (u : Nat) :
    ((targets.map (fun v => (v, it))).filter (fun p => decide (p.1 = u))).map
        (fun p => p.2) =
      (targets.filter (fun v => decide (v = u))).map (fun _ => it) := by
  induction targets with
  | nil => rfl
  | cons a rest ih =>
    by_cases ha : a = u
    · simp [List.filter_cons, List.map_cons, ha, ih]
    · simp [List.filter_cons, List.map_cons, ha, ih]

theorem dInv_init : DInv initDispatch := by
  refine ⟨?_, ?_, ?_, ?_⟩ <;> simp [initDispatch, observedBy, queueCapacity]

theorem dInv_step {s s2 : DispatchState} (h : DInv s) (hstep : DStep s s2) :
    DInv s2 := by
  obtain ⟨h1, h2, h3, h4⟩ := h
  cases hstep with
  | connect u =>
    refine ⟨?_, h2, h3, h4⟩
    by_cases hu : u ∈ s.conns
    · simpa [hu] using h1
    · simp only [if_neg hu]
      rw [List.nodup_append]
      refine ⟨h1, by simp, ?_⟩
      intro a ha hb
      simp only [List.mem_singleton] at hb
      subst hb
      exact hu ha
  | disconnect u =>
    exact ⟨h1.erase u, h2, h3, h4⟩
  | enqueue it hlen =>
    refine ⟨h1, ?_, ?_, h4⟩
    · simpa using Nat.succ_le_of_lt hlen
    · rw [← List.append_assoc, h3]
  | dispatch it rest sendOk hq =>
    refine ⟨h1, ?_, ?_, ?_⟩
    · have : rest.length ≤ s.queue.length := by
        rw [hq]
        simp
      exact this.trans h2
    · rw [List.append_assoc]
      rw [show [it] ++ rest = s.queue from by rw [hq]; rfl]
      exact h3
    · intro u
      have hobs : observedBy { s with
          queue := rest,
          processedLog := s.processedLog ++ [it],
          deliveredLog := s.deliveredLog ++
            (((targetsOf s.conns it).filter sendOk).map (fun v => (v, it))) } u =
          observedBy s u ++
            ((((targetsOf s.conns it).filter sendOk).filter
              (fun v => decide (v = u))).map (fun _ => it)) := by
        unfold observedBy
        dsimp only
        rw [List.filter_append, List.map_append, observed_append_pairs]
      rw [hobs]
      have hnd2 : (((targetsOf s.conns it).filter sendOk)).Nodup :=
        (targetsOf_nodup h1 it).filter sendOk
      rcases filter_eq_single hnd2 u with hx | hx
      · rw [hx]
        simp only [List.map_nil, List.append_nil]
        exact (h4 u).trans (List.sublist_append_left _ _)
      · rw [hx]
        simp only [List.map_cons, List.map_nil]
        exact List.Sublist.append (h4 u) (List.Sublist.refl _)

theorem dInv_reach {s : DispatchState} (h : DReach s) : DInv s := by
  induction h with
  | init => exact dInv_init
  | step hr hs ih => exact dInv_step ih hs

/-- C8: bounded queue with backpressure — in every reachable state of a
room's dispatcher the queue holds at most `queueCapacity = 100` items, and
nothing is ever silently dropped: the items dequeued so far followed by the
items still queued are exactly the enqueue log, in order.  An enqueue step
is only enabled below capacity (`queue.put` suspends the producer when
full) and appends exactly its item. -/
theorem claim_C8_bounded_queue_backpressure {s : DispatchState} (h : DReach s) :
    s.queue.length ≤ queueCapacity ∧
    s.processedLog ++ s.queue = s.enqueuedLog :=
  ⟨(dInv_reach h).2.1, (dInv_reach h).2.2.1⟩

theorem claim_C8_witness :
    ({ conns := [10], queue := [⟨5, none⟩], enqueuedLog := [⟨5, none⟩],
       processedLog := [], deliveredLog := [] } : DispatchState).queue.length ≤
        queueCapacity ∧
    ({ conns := [10], queue := [⟨5, none⟩], enqueuedLog := [⟨5, none⟩],
       processedLog := [], deliveredLog := [] } : DispatchState).processedLog ++
      ({ conns := [10], queue := [⟨5, none⟩], enqueuedLog := [⟨5, none⟩],
         processedLog := [], deliveredLog := [] } : DispatchState).queue =
      ({ conns := [10], queue := [⟨5, none⟩], enqueuedLog := [⟨5, none⟩],
         processedLog := [], deliveredLog := [] } : DispatchState).enqueuedLog :=
  claim_C8_bounded_queue_backpressure
    (DReach.step (DReach.step DReach.init (DStep.connect initDispatch 10))
      (DStep.enqueue _ ⟨5, none⟩ (by decide)))

/-- C3: per-room FIFO delivery — in every reachable state of a room's
dispatcher, the sequence of items any user has received is a subsequence of
the room's enqueue log (enqueue order is never inverted and nothing is
duplicated), because the single consumer dequeues strictly in FIFO order:
the dequeue log is always exactly a prefix of the enqueue log. -/
theorem claim_C3_fifo_per_room {s : DispatchState} (h : DReach s) (u : Nat) :
    (observedBy s u).Sublist s.enqueuedLog ∧
    s.processedLog ++ s.queue = s.enqueuedLog := by
  obtain ⟨h1, h2, h3, h4⟩ := dInv_reach h
  refine ⟨?_, h3⟩
  exact (h4 u).trans (h3 ▸ List.sublist_append_left _ _)

theorem claim_C3_witness :
    (observedBy ({ conns := [10], queue := [], enqueuedLog := [⟨5, none⟩],
                   processedLog := [⟨5, none⟩],
                   deliveredLog := [(10, ⟨5, none⟩)] } : DispatchState) 10).Sublist
      ({ conns := [10], queue := [], enqueuedLog := [⟨5, none⟩],
         processedLog := [⟨5, none⟩],
         deliveredLog := [(10, ⟨5, none⟩)] } : DispatchState).enqueuedLog ∧
    ({ conns := [10], queue := [], enqueuedLog := [⟨5, none⟩],
       processedLog := [⟨5, none⟩],
       deliveredLog := [(10, ⟨5, none⟩)] } : DispatchState).processedLog ++
      ({ conns := [10], queue := [], enqueuedLog := [⟨5, none⟩],
         processedLog := [⟨5, none⟩],
         deliveredLog := [(10, ⟨5, none⟩)] } : DispatchState).queue =
      ({ conns := [10], queue := [], enqueuedLog := [⟨5, none⟩],
         processedLog := [⟨5, none⟩],
         deliveredLog := [(10, ⟨5, none⟩)] } : DispatchState).enqueuedLog :=
  claim_C3_fifo_per_room
    (DReach.step
      (DReach.step (DReach.step DReach.init (DStep.connect initDispatch 10))
        (DStep.enqueue _ ⟨5, none⟩ (by decide)))
      (DStep.dispatch _ ⟨5, none⟩ [] (fun _ => true) (by decide))) 10

end ImcChat
